import Mathlib

/-!
# Verification of the Financia dual-mode scanning and signal-lifecycle engine

Shallow embedding of the core of the repository:
* `strategies/base.py` — pivot detection, ATR, level calculation;
* `strategies/ema_macd.py`, `strategies/resistance_stoch_rsi.py` — evaluators;
* `scanner.py` / `simulation_scanner.py` — `_process_result` scan cycles,
  intra-bar SL/TP detection and backtest auto-trading with balance accounting;
* `web_api/routers/strategies.py` — manual control endpoints.

Python floats are modelled as exact rationals (`ℚ`); pandas `NaN` is modelled
as `Option.none`; pandas Series are modelled as index functions `ℕ → _`
together with an explicit length.  Calls that would raise in Python
(`TypeError` on a `None` comparison, `ZeroDivisionError`) are modelled with
`Option`-valued results.
-/

set_option linter.unusedVariables false

namespace Financia

/-- One OHLCV row.  Only the High/Low/Close columns are read by the code
modelled here (Open and Volume are never used by the pivot, ATR, or
indicator computations). -/
structure Bar where
  high : ℚ
  low : ℚ
  close : ℚ
deriving DecidableEq, Repr

instance : Inhabited Bar := ⟨⟨0, 0, 0⟩⟩

/-- `data["High"].iloc[i]` (0 outside range; all modelled uses are in range). -/
def highAt (data : List Bar) (i : ℕ) : ℚ := (data.getD i default).high

/-- `data["Low"].iloc[i]`. -/
def lowAt (data : List Bar) (i : ℕ) : ℚ := (data.getD i default).low

/-- `data["Close"].iloc[i]`. -/
def closeAt (data : List Bar) (i : ℕ) : ℚ := (data.getD i default).close

/-! ## §4.1 Level Calculator: pivot detection (`BaseStrategy.find_peaks_troughs`) -/

/-- The slice `series.iloc[i - n : i + n + 1]` used inside the pivot loop.
For `n ≤ i < len - n` this is exactly the closed window `[i-n, i+n]`. -/
def windowVals (f : ℕ → ℚ) (i n : ℕ) : List ℚ :=
  (List.range (2 * n + 1)).map fun k => f (i - n + k)

/-- `find_peaks_troughs`, peak half.  The source writes
`peaks.iloc[i] = high.iloc[i]` exactly when `i` ranges over
`range(n_bars, len(data) - n_bars)` and `high.iloc[i] == window_high.max()`;
all other entries stay `NaN` (here `none`). -/
def peakAt (data : List Bar) (n i : ℕ) : Option ℚ :=
  if n ≤ i ∧ i < data.length - n ∧
      (windowVals (highAt data) i n).maximum = (highAt data i : WithBot ℚ)
  then some (highAt data i) else none

/-- `find_peaks_troughs`, trough half (`low.iloc[i] == window_low.min()`). -/
def troughAt (data : List Bar) (n i : ℕ) : Option ℚ :=
  if n ≤ i ∧ i < data.length - n ∧
      (windowVals (lowAt data) i n).minimum = (lowAt data i : WithTop ℚ)
  then some (lowAt data i) else none

/-- Spec-side definition (§4.1, written from the spec's words, for the
refinement claim C3): index `i` is a peak iff the closed window
`[i-n, i+n]` lies inside the series and the bar's High is the maximum High
over that window. -/
def isPeakSpec (data : List Bar) (n i : ℕ) : Prop :=
  n ≤ i ∧ i + n < data.length ∧
    ∀ j, i - n ≤ j → j ≤ i + n → highAt data j ≤ highAt data i

/-- Spec-side definition: trough, symmetric with Lows. -/
def isTroughSpec (data : List Bar) (n i : ℕ) : Prop :=
  n ≤ i ∧ i + n < data.length ∧
    ∀ j, i - n ≤ j → j ≤ i + n → lowAt data i ≤ lowAt data j

lemma mem_windowVals {f : ℕ → ℚ} {i n : ℕ} (hn : n ≤ i) {j : ℕ}
    (h1 : i - n ≤ j) (h2 : j ≤ i + n) : f j ∈ windowVals f i n := by
  refine List.mem_map.mpr ⟨j - (i - n), List.mem_range.mpr (by omega), ?_⟩
  congr 1
  omega

lemma windowVals_max_iff (f : ℕ → ℚ) (i n : ℕ) (hn : n ≤ i) :
    (windowVals f i n).maximum = (f i : WithBot ℚ) ↔
      ∀ j, i - n ≤ j → j ≤ i + n → f j ≤ f i := by
  rw [List.maximum_eq_coe_iff]
  constructor
  · rintro ⟨-, hall⟩ j hj1 hj2
    exact hall _ (mem_windowVals hn hj1 hj2)
  · intro hall
    refine ⟨mem_windowVals hn (by omega) (by omega), ?_⟩
    rintro a ha
    rcases List.mem_map.mp ha with ⟨k, hk, rfl⟩
    have hk' := List.mem_range.mp hk
    exact hall _ (by omega) (by omega)

lemma windowVals_min_iff (f : ℕ → ℚ) (i n : ℕ) (hn : n ≤ i) :
    (windowVals f i n).minimum = (f i : WithTop ℚ) ↔
      ∀ j, i - n ≤ j → j ≤ i + n → f i ≤ f j := by
  rw [List.minimum_eq_coe_iff]
  constructor
  · rintro ⟨-, hall⟩ j hj1 hj2
    exact hall _ (mem_windowVals hn hj1 hj2)
  · intro hall
    refine ⟨mem_windowVals hn (by omega) (by omega), ?_⟩
    rintro a ha
    rcases List.mem_map.mp ha with ⟨k, hk, rfl⟩
    have hk' := List.mem_range.mp hk
    exact hall _ (by omega) (by omega)

/-- C3. `find_peaks_troughs` reports index `i` as a peak exactly when its
High is the maximum of the closed window `[i-n, i+n]` inside the series
(symmetrically for troughs with Lows), the reported value is the bar's own
High/Low, and indices within `n` bars of either end are never reported. -/
theorem find_peaks_troughs_correct (data : List Bar) (n i : ℕ) :
    ((peakAt data n i).isSome ↔ isPeakSpec data n i) ∧
    ((troughAt data n i).isSome ↔ isTroughSpec data n i) ∧
    (isPeakSpec data n i → peakAt data n i = some (highAt data i)) ∧
    (isTroughSpec data n i → troughAt data n i = some (lowAt data i)) ∧
    (i < n ∨ data.length ≤ i + n → peakAt data n i = none ∧ troughAt data n i = none) := by
  have hpk : (peakAt data n i).isSome ↔ isPeakSpec data n i := by
    unfold peakAt isPeakSpec
    split_ifs with h
    · simp only [Option.isSome_some, true_iff]
      obtain ⟨h1, h2, h3⟩ := h
      exact ⟨h1, by omega, (windowVals_max_iff _ _ _ h1).mp h3⟩
    · simp only [Option.isSome_none, Bool.false_eq_true, false_iff]
      intro ⟨h1, h2, h3⟩
      exact h ⟨h1, by omega, (windowVals_max_iff _ _ _ h1).mpr h3⟩
  have htr : (troughAt data n i).isSome ↔ isTroughSpec data n i := by
    unfold troughAt isTroughSpec
    split_ifs with h
    · simp only [Option.isSome_some, true_iff]
      obtain ⟨h1, h2, h3⟩ := h
      exact ⟨h1, by omega, (windowVals_min_iff _ _ _ h1).mp h3⟩
    · simp only [Option.isSome_none, Bool.false_eq_true, false_iff]
      intro ⟨h1, h2, h3⟩
      exact h ⟨h1, by omega, (windowVals_min_iff _ _ _ h1).mpr h3⟩
  refine ⟨hpk, htr, ?_, ?_, ?_⟩
  · intro hs
    have := hpk.mpr hs
    unfold peakAt at this ⊢
    split_ifs at this ⊢ <;> simp_all
  · intro hs
    have := htr.mpr hs
    unfold troughAt at this ⊢
    split_ifs at this ⊢ <;> simp_all
  · intro hrange
    constructor
    · unfold peakAt
      split_ifs with h
      · exact absurd h (by rintro ⟨h1, h2, -⟩; omega)
      · rfl
    · unfold troughAt
      split_ifs with h
      · exact absurd h (by rintro ⟨h1, h2, -⟩; omega)
      · rfl

/-! ## `BaseStrategy.get_last_peak_trough` -/

/-- Last non-`none` value of `f` among indices `< len`
(`series.dropna().iloc[-1]`, `None` when everything is `NaN`). -/
def lastSome (f : ℕ → Option ℚ) : ℕ → Option ℚ
  | 0 => none
  | n + 1 => match f n with
    | some v => some v
    | none => lastSome f n

/-- `get_last_peak_trough(data, n_bars)`: the most recent confirmed peak and
trough values, or `none` when no pivot exists in range. -/
def get_last_peak_trough (data : List Bar) (n_bars : ℕ) : Option ℚ × Option ℚ :=
  (lastSome (peakAt data n_bars) data.length,
   lastSome (troughAt data n_bars) data.length)

/-! ## Decimal rounding

Python's builtin `round(x, k)` rounds half to even.  The concrete inputs used
by the witnesses and counterexamples below are far from ties, where every
reasonable rounding (and the IEEE-754 behaviour of the source) agrees. -/

/-- Round half to even to the nearest integer. -/
def rhe (x : ℚ) : ℤ :=
  let f := ⌊x⌋
  let r := x - f
  if r < 1/2 then f
  else if 1/2 < r then f + 1
  else if f % 2 = 0 then f else f + 1

/-- Python `round(x, 4)`. -/
def round4 (x : ℚ) : ℚ := (rhe (x * 10000) : ℚ) / 10000

/-- Python `round(x, 2)`. -/
def round2 (x : ℚ) : ℚ := (rhe (x * 100) : ℚ) / 100

/-! ## §4.1 Level Calculator: ATR and `BaseStrategy.calculate_levels` -/

/-- True range of bar `i`:
`max(high-low, |high-prevClose|, |low-prevClose|)`.  For `i = 0` the shifted
close is `NaN`, and the pandas row-wise `max` skips `NaN`, leaving
`high - low`. -/
def trueRangeAt (data : List Bar) (i : ℕ) : ℚ :=
  if i = 0 then highAt data 0 - lowAt data 0
  else
    max (highAt data i - lowAt data i)
      (max |highAt data i - closeAt data (i - 1)| |lowAt data i - closeAt data (i - 1)|)

/-- `calculate_atr(data, period).iloc[-1]`: rolling mean of the true range
over the last `period` bars; `NaN` (`none`) when fewer than `period` bars
exist. -/
def currentATR (data : List Bar) (period : ℕ) : Option ℚ :=
  if data.length < period ∨ period = 0 then none
  else some (((List.range period).map
      fun k => trueRangeAt data (data.length - period + k)).sum / period)

/-- Body of `calculate_levels` after `current_atr = atr.iloc[-1]`, before the
final `round(_, 4)` calls. -/
def levelsExact (current_atr : ℚ) (longDir : Bool) (last_peak last_trough : ℚ)
    (atr_multiplier max_atr_risk min_atr_risk rrr : ℚ) : ℚ × ℚ × ℚ :=
  let buffer := current_atr * atr_multiplier
  let max_stop_distance := current_atr * max_atr_risk
  let min_stop_distance := current_atr * min_atr_risk
  if longDir then
    let entry := last_peak + buffer
    let natural_stop := last_trough - buffer
    let capped_stop := entry - max_stop_distance
    let stop_loss := max natural_stop capped_stop
    let risk := entry - stop_loss
    let stop_loss := if risk < min_stop_distance then entry - min_stop_distance else stop_loss
    let risk := if risk < min_stop_distance then min_stop_distance else risk
    let take_profit := entry + risk * rrr
    (entry, stop_loss, take_profit)
  else
    let entry := last_trough - buffer
    let natural_stop := last_peak + buffer
    let capped_stop := entry + max_stop_distance
    let stop_loss := min natural_stop capped_stop
    let risk := stop_loss - entry
    let stop_loss := if risk < min_stop_distance then entry + min_stop_distance else stop_loss
    let risk := if risk < min_stop_distance then min_stop_distance else risk
    let take_profit := entry - risk * rrr
    (entry, stop_loss, take_profit)

/-- `BaseStrategy.calculate_levels(data, direction, last_peak, last_trough,
atr_multiplier, max_atr_risk, min_atr_risk)` with `self.risk_reward_ratio =
rrr`; returns `round(entry, 4), round(stop_loss, 4), round(take_profit, 4)`.
When the ATR is `NaN` (fewer than 14 bars) every returned number is `NaN`,
modelled as `none`. -/
def calculate_levels (data : List Bar) (longDir : Bool) (last_peak last_trough : ℚ)
    (atr_multiplier : ℚ := 1/4) (max_atr_risk : ℚ := 5/2) (min_atr_risk : ℚ := 1/2)
    (rrr : ℚ := 2) : Option (ℚ × ℚ × ℚ) :=
  (currentATR data 14).map fun current_atr =>
    let (e, s, t) := levelsExact current_atr longDir last_peak last_trough
      atr_multiplier max_atr_risk min_atr_risk rrr
    (round4 e, round4 s, round4 t)

/-- C4 (amended).  Before the final `round(_, 4)` calls, the levels computed
by `calculate_levels` satisfy the risk bounds
`min_atr_risk·ATR ≤ |entry − stop_loss| ≤ max_atr_risk·ATR`, with
`entry = last_peak + ATR·atr_multiplier` and
`take_profit = entry + (entry − stop_loss)·rrr` for longs (mirrored for
shorts); the returned triple is the 4-decimal rounding of these values. -/
theorem calculate_levels_bounds (data : List Bar) (longDir : Bool)
    (lp lt mult maxR minR rrr a : ℚ)
    (hatr : currentATR data 14 = some a) (ha : 0 < a)
    (hmin : 0 ≤ minR) (hmm : minR ≤ maxR) :
    (minR * a ≤
        |(levelsExact a longDir lp lt mult maxR minR rrr).1 -
          (levelsExact a longDir lp lt mult maxR minR rrr).2.1| ∧
      |(levelsExact a longDir lp lt mult maxR minR rrr).1 -
          (levelsExact a longDir lp lt mult maxR minR rrr).2.1| ≤ maxR * a) ∧
    calculate_levels data longDir lp lt mult maxR minR rrr =
      some (round4 (levelsExact a longDir lp lt mult maxR minR rrr).1,
            round4 (levelsExact a longDir lp lt mult maxR minR rrr).2.1,
            round4 (levelsExact a longDir lp lt mult maxR minR rrr).2.2) ∧
    (longDir = true →
      (levelsExact a longDir lp lt mult maxR minR rrr).1 = lp + a * mult ∧
      (levelsExact a longDir lp lt mult maxR minR rrr).2.2 =
        (levelsExact a longDir lp lt mult maxR minR rrr).1 +
          ((levelsExact a longDir lp lt mult maxR minR rrr).1 -
            (levelsExact a longDir lp lt mult maxR minR rrr).2.1) * rrr) ∧
    (longDir = false →
      (levelsExact a longDir lp lt mult maxR minR rrr).1 = lt - a * mult ∧
      (levelsExact a longDir lp lt mult maxR minR rrr).2.2 =
        (levelsExact a longDir lp lt mult maxR minR rrr).1 -
          ((levelsExact a longDir lp lt mult maxR minR rrr).2.1 -
            (levelsExact a longDir lp lt mult maxR minR rrr).1) * rrr) := by
  have hma : minR * a ≤ maxR * a := mul_le_mul_of_nonneg_right hmm (le_of_lt ha)
  have hmina : 0 ≤ a * minR := mul_nonneg (le_of_lt ha) hmin
  refine ⟨?_, ?_, ?_, ?_⟩
  · cases longDir <;> unfold levelsExact <;>
      simp only [Bool.false_eq_true, if_true, if_false] <;> split_ifs with hr
    · -- short, widened to the floor
      rw [abs_of_nonpos (by linarith)]
      constructor <;> ring_nf <;> linarith
    · -- short, natural/capped stop
      have hle : min (lp + a * mult) (lt - a * mult + a * maxR) ≤
          lt - a * mult + a * maxR := min_le_right _ _
      rw [abs_of_nonpos (by linarith)]
      constructor <;> linarith
    · -- long, widened to the floor
      rw [abs_of_nonneg (by linarith)]
      constructor <;> ring_nf <;> linarith
    · -- long, natural/capped stop
      have hle : lp + a * mult - a * maxR ≤
          max (lt - a * mult) (lp + a * mult - a * maxR) := le_max_right _ _
      rw [abs_of_nonneg (by linarith)]
      constructor <;> linarith
  · unfold calculate_levels
    rw [hatr, Option.map_some']
  · rintro rfl
    unfold levelsExact
    simp only [if_true]
    split_ifs with hr <;> constructor <;> ring_nf
  · rintro rfl
    unfold levelsExact
    simp only [Bool.false_eq_true, if_false]
    split_ifs with hr <;> constructor <;> ring_nf

/-- 14 identical bars with `High = 2.0001`, `Low = Close = 2`, so that the
current ATR is exactly `0.0001`. -/
def tinyAtrData : List Bar := List.replicate 14 ⟨20001/10000, 2, 2⟩

lemma currentATR_tinyAtrData : currentATR tinyAtrData 14 = some (1/10000) := by
  have hgi : ∀ j, j < 14 → tinyAtrData[j]? = some (⟨20001/10000, 2, 2⟩ : Bar) := by
    intro j hj
    rw [tinyAtrData]
    exact List.getElem?_replicate_of_lt hj
  have hlen : tinyAtrData.length = 14 := by rw [tinyAtrData]; simp
  have htr : ∀ i, i < 14 → trueRangeAt tinyAtrData i = 1/10000 := by
    intro i hi
    rcases Nat.eq_zero_or_pos i with h0 | hpos
    · subst h0
      rw [trueRangeAt, if_pos rfl, highAt, lowAt, List.getD_eq_getElem?_getD,
        hgi 0 (by norm_num)]
      norm_num
    · rw [trueRangeAt, if_neg (by omega), highAt, lowAt, closeAt]
      simp only [List.getD_eq_getElem?_getD]
      rw [hgi i hi, hgi (i - 1) (by omega)]
      simp only [Option.getD_some]
      rw [show (20001:ℚ)/10000 - 2 = 1/10000 by norm_num,
        show ((2:ℚ)) - 2 = 0 by norm_num, abs_zero,
        show |(1:ℚ)/10000| = 1/10000 from abs_of_nonneg (by norm_num)]
      rw [max_eq_left (by norm_num)]
  rw [currentATR, if_neg (by rw [hlen]; norm_num), hlen]
  rw [List.map_congr_left (fun k hk => htr _ (by have := List.mem_range.mp hk; omega)),
    List.map_const', List.sum_replicate]
  norm_num

/-- C4 counterexample.  At ATR `= 0.0001 > 0` with the default parameters
(`atr_multiplier = 0.25`, `max_atr_risk = 2.5`, `min_atr_risk = 0.5`,
`risk_reward_ratio = 2`), `last_peak = 0.999995`, `last_trough = 1`, the
widened stop is `entry − 0.00005`, but after the final `round(_, 4)` the
returned entry and stop are both `1.0`, so
`min_atr_risk·ATR ≤ |entry − stop_loss|` fails on the returned values. -/
theorem calculate_levels_round_violation :
    currentATR tinyAtrData 14 = some (1/10000) ∧
    calculate_levels tinyAtrData true (199999/200000) 1 (1/4) (5/2) (1/2) 2 =
      some (1, 1, 10001/10000) ∧
    ¬ ((1/2 : ℚ) * (1/10000) ≤ |(1 : ℚ) - 1|) := by
  refine ⟨currentATR_tinyAtrData, ?_, by norm_num⟩
  rw [calculate_levels, currentATR_tinyAtrData, Option.map_some']
  norm_num [levelsExact, max_def, round4, rhe]

/-- Witness for `calculate_levels_bounds` at the concrete data of
`tinyAtrData`. -/
theorem calculate_levels_bounds_witness :
    currentATR tinyAtrData 14 = some (1/10000) ∧ (0 : ℚ) < 1/10000 ∧
    (0 : ℚ) ≤ 1/2 ∧ (1/2 : ℚ) ≤ 5/2 ∧
    ((1/2 : ℚ) * (1/10000) ≤
        |(levelsExact (1/10000) true (199999/200000) 1 (1/4) (5/2) (1/2) 2).1 -
          (levelsExact (1/10000) true (199999/200000) 1 (1/4) (5/2) (1/2) 2).2.1| ∧
      |(levelsExact (1/10000) true (199999/200000) 1 (1/4) (5/2) (1/2) 2).1 -
          (levelsExact (1/10000) true (199999/200000) 1 (1/4) (5/2) (1/2) 2).2.1| ≤
        (5/2 : ℚ) * (1/10000)) :=
  ⟨currentATR_tinyAtrData, by norm_num, by norm_num, by norm_num,
    ((calculate_levels_bounds tinyAtrData true (199999/200000) 1 (1/4) (5/2) (1/2) 2
      (1/10000) currentATR_tinyAtrData (by norm_num) (by norm_num) (by norm_num)).1)⟩

/-! ## §4.2 Strategy evaluators -/

/-- `StrategyResult` (the fields consumed by the scanners; the free-form
`extra_data` diagnostic map is modelled only through the last-candle
High/Low entries the simulation scanner injects, see `ScanResult` below). -/
structure StrategyResult where
  precondition_met : Bool := false
  main_condition_met : Bool := false
  longDir : Bool := true          -- direction: `"long"` ↦ `true`, `"short"` ↦ `false`
  entry_price : Option ℚ := none
  stop_loss : Option ℚ := none
  take_profit : Option ℚ := none
  last_peak : Option ℚ := none
  last_trough : Option ℚ := none
  current_price : Option ℚ := none
  notes : String := ""
deriving DecidableEq, Repr

/-- `series.ewm(span=span, adjust=False).mean()` at index `i`:
`y₀ = x₀`, `yᵢ = (1-α)·yᵢ₋₁ + α·xᵢ` with `α = 2/(span+1)`. -/
def ewmaAt (span : ℕ) (x : ℕ → ℚ) : ℕ → ℚ
  | 0 => x 0
  | i + 1 => (1 - 2/((span : ℚ) + 1)) * ewmaAt span x i + 2/((span : ℚ) + 1) * x (i + 1)

/-- `calculate_macd`: MACD line `EMA_fast − EMA_slow` at index `i`. -/
def macdAt (fast slow : ℕ) (x : ℕ → ℚ) (i : ℕ) : ℚ :=
  ewmaAt fast x i - ewmaAt slow x i

/-- `calculate_macd`: signal line, EMA of the MACD line. -/
def macdSignalAt (fast slow sig : ℕ) (x : ℕ → ℚ) : ℕ → ℚ :=
  ewmaAt sig (macdAt fast slow x)

/-- Parameters of `EMAMACDStrategy` (its `atr_period` default parameter is
never read by `evaluate`, which leaves `calculate_levels` on the default
14-bar ATR). -/
structure EmaMacdParams where
  ema_period : ℕ := 200
  macd_fast : ℕ := 12
  macd_slow : ℕ := 26
  macd_signal : ℕ := 9
  pivot_bars : ℕ := 5
  atr_multiplier : ℚ := 1/2
deriving DecidableEq, Repr

/-- `EMAMACDStrategy.evaluate`.  Indexing `iloc[-1]`/`iloc[-2]` is modelled
as `data.length - 1` / `data.length - 2` (total where the source would raise
`IndexError` on a one-bar frame, which the length guard excludes for the
default parameters). -/
def emaMacdEvaluate (p : EmaMacdParams) (rrr : ℚ) (data : List Bar) : StrategyResult :=
  if data.length = 0 ∨ data.length < p.ema_period then
    { notes := "Insufficient data" }
  else
    let close := closeAt data
    let last := data.length - 1
    let current_price := close last
    let current_ema := ewmaAt p.ema_period close last
    let current_macd := macdAt p.macd_fast p.macd_slow close last
    let current_signal := macdSignalAt p.macd_fast p.macd_slow p.macd_signal close last
    let prev_macd := macdAt p.macd_fast p.macd_slow close (last - 1)
    let prev_signal := macdSignalAt p.macd_fast p.macd_slow p.macd_signal close (last - 1)
    let lp := (get_last_peak_trough data p.pivot_bars).1
    let lt := (get_last_peak_trough data p.pivot_bars).2
    let base : StrategyResult :=
      { current_price := some current_price, last_peak := lp, last_trough := lt }
    let bullish_cross : Bool :=
      decide (prev_macd < prev_signal) && decide (current_signal < current_macd)
    let bearish_cross : Bool :=
      decide (prev_signal < prev_macd) && decide (current_macd < current_signal)
    if current_ema < current_price then
      if bullish_cross then
        match lp, lt with
        | some lpv, some ltv =>
          let lv := calculate_levels data true lpv ltv p.atr_multiplier (5/2) (1/2) rrr
          { base with
            precondition_met := true, main_condition_met := true, longDir := true
            notes := "Fiyat EMA200 üzerinde, MACD yukarı kesti → LONG"
            entry_price := lv.map (·.1), stop_loss := lv.map (·.2.1)
            take_profit := lv.map (·.2.2) }
        | _, _ =>
          { base with
            precondition_met := true, main_condition_met := true, longDir := true
            notes := "Fiyat EMA200 üzerinde, MACD yukarı kesti → LONG (Tepe/Dip bulunamadı)" }
      else { base with precondition_met := true, longDir := true }
    else if current_price < current_ema then
      if bearish_cross then
        match lp, lt with
        | some lpv, some ltv =>
          let lv := calculate_levels data false lpv ltv p.atr_multiplier (5/2) (1/2) rrr
          { base with
            precondition_met := true, main_condition_met := true, longDir := false
            notes := "Fiyat EMA200 altında, MACD aşağı kesti → SHORT"
            entry_price := lv.map (·.1), stop_loss := lv.map (·.2.1)
            take_profit := lv.map (·.2.2) }
        | _, _ =>
          { base with
            precondition_met := true, main_condition_met := true, longDir := false
            notes := "Fiyat EMA200 altında, MACD aşağı kesti → SHORT (Tepe/Dip bulunamadı)" }
      else { base with precondition_met := true, longDir := false }
    else base

/-! ### `ResistanceBreakoutStrategy` indicator pipeline

pandas `NaN` entries are `none`; rolling aggregates use the default
`min_periods = window`, so a window containing any `NaN` yields `NaN`. -/

/-- `close.diff()`: `NaN` at index 0. -/
def deltaAt (x : ℕ → ℚ) (i : ℕ) : Option ℚ :=
  if i = 0 then none else some (x i - x (i - 1))

/-- `delta.where(delta > 0, 0.0)`: the index-0 `NaN` fails the condition and
becomes `0.0`, so the gain series has no `NaN`. -/
def gainAt (x : ℕ → ℚ) (i : ℕ) : ℚ :=
  match deltaAt x i with
  | some d => if 0 < d then d else 0
  | none => 0

/-- `(-delta).where(delta < 0, 0.0)`. -/
def lossAt (x : ℕ → ℚ) (i : ℕ) : ℚ :=
  match deltaAt x i with
  | some d => if d < 0 then -d else 0
  | none => 0

/-- `series.rolling(window=w).mean()` over a `NaN`-free series: `NaN` before
`w` observations exist. -/
def rollingMeanAt (w : ℕ) (x : ℕ → ℚ) (i : ℕ) : Option ℚ :=
  if i + 1 < w ∨ w = 0 then none
  else some (((List.range w).map fun k => x (i + 1 - w + k)).sum / w)

/-- `calculate_rsi` at index `i`.  `rs = avg_gain / avg_loss` is IEEE
division: `0/0 = NaN` (so the RSI is `NaN`), and `g/0 = +inf` for `g > 0`
(so `100 - 100/(1+rs) = 100`). -/
def rsiAt (rsi_period : ℕ) (x : ℕ → ℚ) (i : ℕ) : Option ℚ :=
  match rollingMeanAt rsi_period (gainAt x) i, rollingMeanAt rsi_period (lossAt x) i with
  | some g, some l =>
      if l = 0 then (if g = 0 then none else some 100)
      else some (100 - 100 / (1 + g / l))
  | _, _ => none

/-- `series.rolling(w).min()` over a possibly-`NaN` series: with the default
`min_periods = w` the result is `NaN` unless all `w` window entries are
numbers. -/
def rollingMinAtO (w : ℕ) (f : ℕ → Option ℚ) (i : ℕ) : Option ℚ :=
  if i + 1 < w ∨ w = 0 then none
  else if ((List.range w).map fun k => f (i + 1 - w + k)).all (·.isSome)
  then ((((List.range w).map fun k => f (i + 1 - w + k)).filterMap id)).min?
  else none

/-- `series.rolling(w).max()`, as `rollingMinAtO`. -/
def rollingMaxAtO (w : ℕ) (f : ℕ → Option ℚ) (i : ℕ) : Option ℚ :=
  if i + 1 < w ∨ w = 0 then none
  else if ((List.range w).map fun k => f (i + 1 - w + k)).all (·.isSome)
  then ((((List.range w).map fun k => f (i + 1 - w + k)).filterMap id)).max?
  else none

/-- `series.rolling(w).mean()` over a possibly-`NaN` series. -/
def rollingMeanAtO (w : ℕ) (f : ℕ → Option ℚ) (i : ℕ) : Option ℚ :=
  if i + 1 < w ∨ w = 0 then none
  else if ((List.range w).map fun k => f (i + 1 - w + k)).all (·.isSome)
  then some (((((List.range w).map fun k => f (i + 1 - w + k)).filterMap id)).sum / w)
  else none

/-- Parameters of `ResistanceBreakoutStrategy`. -/
structure ResistanceParams where
  ema_period : ℕ := 200
  rsi_period : ℕ := 14
  stoch_period : ℕ := 14
  stoch_k : ℕ := 3
  stoch_d : ℕ := 3
  stoch_oversold : ℚ := 20
  pivot_bars : ℕ := 5
  atr_period : ℕ := 14
  atr_multiplier : ℚ := 1/2
deriving DecidableEq, Repr

/-- `rsi.rolling(stoch_period).min()`. -/
def rsiMinAt (ps : ResistanceParams) (x : ℕ → ℚ) : ℕ → Option ℚ :=
  rollingMinAtO ps.stoch_period (rsiAt ps.rsi_period x)

/-- `rsi.rolling(stoch_period).max()`. -/
def rsiMaxAt (ps : ResistanceParams) (x : ℕ → ℚ) : ℕ → Option ℚ :=
  rollingMaxAtO ps.stoch_period (rsiAt ps.rsi_period x)

/-- `rsi_range = rsi_max - rsi_min` (before the `replace(0, nan)`). -/
def rsiRangeAt (ps : ResistanceParams) (x : ℕ → ℚ) (i : ℕ) : Option ℚ :=
  match rsiMaxAt ps x i, rsiMinAt ps x i with
  | some a, some b => some (a - b)
  | _, _ => none

/-- `rsi_range.replace(0, np.nan)`: a zero denominator becomes `NaN`. -/
def rsiRangeReplAt (ps : ResistanceParams) (x : ℕ → ℚ) (i : ℕ) : Option ℚ :=
  match rsiRangeAt ps x i with
  | some v => if v = 0 then none else some v
  | none => none

/-- `stoch_rsi = ((rsi - rsi_min) / rsi_range) * 100`. -/
def stochRsiAt (ps : ResistanceParams) (x : ℕ → ℚ) (i : ℕ) : Option ℚ :=
  match rsiAt ps.rsi_period x i, rsiMinAt ps x i, rsiRangeReplAt ps x i with
  | some r, some mn, some rng => some ((r - mn) / rng * 100)
  | _, _, _ => none

/-- `%K = SMA(stoch_rsi, k_period)`. -/
def stochKAt (ps : ResistanceParams) (x : ℕ → ℚ) : ℕ → Option ℚ :=
  rollingMeanAtO ps.stoch_k (stochRsiAt ps x)

/-- `%D = SMA(%K, d_period)`. -/
def stochDAt (ps : ResistanceParams) (x : ℕ → ℚ) : ℕ → Option ℚ :=
  rollingMeanAtO ps.stoch_d (stochKAt ps x)

/-- `ResistanceBreakoutStrategy.evaluate` (long-only breakout strategy). -/
def resistanceEvaluate (ps : ResistanceParams) (rrr : ℚ) (data : List Bar) :
    StrategyResult :=
  let min_required := max ps.ema_period (ps.rsi_period + ps.stoch_period + ps.stoch_k)
  if data.length = 0 ∨ data.length < min_required then { notes := "Yetersiz veri" }
  else
    let close := closeAt data
    let last := data.length - 1
    let current_price := close last
    let current_ema := ewmaAt ps.ema_period close last
    let current_stoch_k := stochKAt ps close last
    let prev_stoch_k := stochKAt ps close (last - 1)
    let lp := (get_last_peak_trough data ps.pivot_bars).1
    let lt := (get_last_peak_trough data ps.pivot_bars).2
    let base : StrategyResult :=
      { current_price := some current_price, last_peak := lp, last_trough := lt
        longDir := true }
    if current_ema < current_price then
      match lp, lt with
      | some lpv, some ltv =>
        let breakout_occurred : Bool := decide (lpv < current_price)
        let stoch_cross_up : Bool :=
          match prev_stoch_k, current_stoch_k with
          | some pk, some ck =>
              decide (pk < ps.stoch_oversold) && decide (ps.stoch_oversold ≤ ck)
          | _, _ => false
        if breakout_occurred && stoch_cross_up then
          -- Entry: current price; Stop: last trough − ATR·multiplier, then
          -- clamped by literal `min_atr_risk = 0.5` / `max_atr_risk = 2.5`.
          match currentATR data ps.atr_period with
          | some current_atr =>
            let entry := current_price
            let buffer := current_atr * ps.atr_multiplier
            let stop_loss := ltv - buffer
            let risk := entry - stop_loss
            let stop_loss :=
              if risk < current_atr * (1/2) then entry - current_atr * (1/2)
              else if current_atr * (5/2) < risk then entry - current_atr * (5/2)
              else stop_loss
            let risk := entry - stop_loss
            let take_profit := entry + risk * rrr
            { base with
              precondition_met := true, main_condition_met := true
              notes := "Direnç kırılımı + StochRSI momentum teyidi → LONG"
              entry_price := some (round4 entry), stop_loss := some (round4 stop_loss)
              take_profit := some (round4 take_profit) }
          | none =>
            -- ATR is NaN: in the source the stop and target become NaN while
            -- the entry stays the (numeric) current price.
            { base with
              precondition_met := true, main_condition_met := true
              notes := "Direnç kırılımı + StochRSI momentum teyidi → LONG"
              entry_price := some (round4 current_price) }
        else if breakout_occurred then
          { base with
            precondition_met := true
            notes := "Direnç kırıldı, StochRSI momentum teyidi bekleniyor" }
        else
          { base with
            precondition_met := true
            notes := "Ön koşul sağlandı, direnç kırılımı bekleniyor" }
      | _, _ =>
        { base with
          precondition_met := true
          notes := "Ön koşul sağlandı (EMA200 üstünde), tepe/dip bulunamadı" }
    else { base with notes := "Fiyat EMA200 altında, yükseliş trendi yok" }

lemma emaMacd_missing_pivots (p : EmaMacdParams) (rrr : ℚ) (data : List Bar)
    (h : (get_last_peak_trough data p.pivot_bars).1 = none ∨
         (get_last_peak_trough data p.pivot_bars).2 = none) :
    (emaMacdEvaluate p rrr data).entry_price = none ∧
    (emaMacdEvaluate p rrr data).stop_loss = none ∧
    (emaMacdEvaluate p rrr data).take_profit = none := by
  rcases h1 : (get_last_peak_trough data p.pivot_bars).1 with _ | lpv <;>
    rcases h2 : (get_last_peak_trough data p.pivot_bars).2 with _ | ltv <;>
    simp only [emaMacdEvaluate, h1, h2] <;>
    split_ifs <;>
    simp_all

lemma resistance_missing_pivots (ps : ResistanceParams) (rrr : ℚ) (data : List Bar)
    (h : (get_last_peak_trough data ps.pivot_bars).1 = none ∨
         (get_last_peak_trough data ps.pivot_bars).2 = none) :
    (resistanceEvaluate ps rrr data).main_condition_met = false ∧
    (resistanceEvaluate ps rrr data).entry_price = none ∧
    (resistanceEvaluate ps rrr data).stop_loss = none ∧
    (resistanceEvaluate ps rrr data).take_profit = none ∧
    ((resistanceEvaluate ps rrr data).precondition_met = true →
      (resistanceEvaluate ps rrr data).notes =
        "Ön koşul sağlandı (EMA200 üstünde), tepe/dip bulunamadı") := by
  rcases h1 : (get_last_peak_trough data ps.pivot_bars).1 with _ | lpv <;>
    rcases h2 : (get_last_peak_trough data ps.pivot_bars).2 with _ | ltv <;>
    simp only [resistanceEvaluate, h1, h2] <;>
    split_ifs <;>
    simp_all

/-- C5 (amended).  When the most recent confirmed peak or trough is missing,
neither strategy ever attempts level computation: `entry_price`,
`stop_loss` and `take_profit` all stay `None`.  The breakout strategy
additionally keeps `main_condition_met` false and explains itself in the
note once the precondition holds; the EMA+MACD strategy, however, may still
report `main_condition_met = true` (see
`emaMacd_missing_pivot_main_true`). -/
theorem missing_pivots_no_levels (p : EmaMacdParams) (ps : ResistanceParams)
    (rrr rrr' : ℚ) (data data' : List Bar)
    (he : (get_last_peak_trough data p.pivot_bars).1 = none ∨
          (get_last_peak_trough data p.pivot_bars).2 = none)
    (hr : (get_last_peak_trough data' ps.pivot_bars).1 = none ∨
          (get_last_peak_trough data' ps.pivot_bars).2 = none) :
    ((emaMacdEvaluate p rrr data).entry_price = none ∧
     (emaMacdEvaluate p rrr data).stop_loss = none ∧
     (emaMacdEvaluate p rrr data).take_profit = none) ∧
    ((resistanceEvaluate ps rrr' data').main_condition_met = false ∧
     (resistanceEvaluate ps rrr' data').entry_price = none ∧
     (resistanceEvaluate ps rrr' data').stop_loss = none ∧
     (resistanceEvaluate ps rrr' data').take_profit = none ∧
     ((resistanceEvaluate ps rrr' data').precondition_met = true →
       (resistanceEvaluate ps rrr' data').notes =
         "Ön koşul sağlandı (EMA200 üstünde), tepe/dip bulunamadı")) :=
  ⟨emaMacd_missing_pivots p rrr data he, resistance_missing_pivots ps rrr' data' hr⟩

/-- Witness for `missing_pivots_no_levels` on the empty frame (which has no
pivots at all). -/
theorem missing_pivots_no_levels_witness :
    ((get_last_peak_trough [] (5:ℕ)).1 = none ∨
     (get_last_peak_trough [] (5:ℕ)).2 = none) ∧
    (emaMacdEvaluate {} 2 []).entry_price = none ∧
    (resistanceEvaluate {} 2 []).main_condition_met = false :=
  ⟨Or.inl rfl,
   (missing_pivots_no_levels {} {} 2 2 [] [] (Or.inl rfl) (Or.inl rfl)).1.1,
   (missing_pivots_no_levels {} {} 2 2 [] [] (Or.inl rfl) (Or.inl rfl)).2.1⟩

lemma peakAt_none_of_lt (data : List Bar) (n i j : ℕ) (hj1 : i - n ≤ j)
    (hj2 : j ≤ i + n) (hlt : highAt data i < highAt data j) :
    peakAt data n i = none := by
  unfold peakAt
  split_ifs with h
  · obtain ⟨h1, -, h3⟩ := h
    exact absurd ((windowVals_max_iff _ _ _ h1).mp h3 j hj1 hj2) (not_le.mpr hlt)
  · rfl

lemma troughAt_none_of_lt (data : List Bar) (n i j : ℕ) (hj1 : i - n ≤ j)
    (hj2 : j ≤ i + n) (hlt : lowAt data j < lowAt data i) :
    troughAt data n i = none := by
  unfold troughAt
  split_ifs with h
  · obtain ⟨h1, -, h3⟩ := h
    exact absurd ((windowVals_min_iff _ _ _ h1).mp h3 j hj1 hj2) (not_le.mpr hlt)
  · rfl

lemma peakAt_none_of_range (data : List Bar) (n i : ℕ)
    (h : ¬(n ≤ i ∧ i < data.length - n)) : peakAt data n i = none := by
  unfold peakAt
  split_ifs with h'
  · exact absurd ⟨h'.1, h'.2.1⟩ h
  · rfl

lemma troughAt_none_of_range (data : List Bar) (n i : ℕ)
    (h : ¬(n ≤ i ∧ i < data.length - n)) : troughAt data n i = none := by
  unfold troughAt
  split_ifs with h'
  · exact absurd ⟨h'.1, h'.2.1⟩ h
  · rfl

/-- Four bars with strictly increasing Highs and Lows (no confirmed pivot
anywhere) whose Closes dip and then spike, producing a bullish MACD cross
above the EMA. -/
def crossData : List Bar := [⟨13, 1, 10⟩, ⟨27/2, 2, 9⟩, ⟨14, 3, 8⟩, ⟨29/2, 4, 12⟩]

/-- Small-span parameters for `EMAMACDStrategy` (`ema_period = 3`,
`macd_fast = 2`, `macd_slow = 4`, `macd_signal = 3`, `pivot_bars = 1`). -/
def pCross : EmaMacdParams := ⟨3, 2, 4, 3, 1, 1/2⟩

lemma crossData_no_pivots : get_last_peak_trough crossData 1 = (none, none) := by
  have p0 : peakAt crossData 1 0 = none :=
    peakAt_none_of_range _ _ _ (by norm_num)
  have p1 : peakAt crossData 1 1 = none :=
    peakAt_none_of_lt _ _ _ 2 (by omega) (by omega)
      (by norm_num [highAt, crossData])
  have p2 : peakAt crossData 1 2 = none :=
    peakAt_none_of_lt _ _ _ 3 (by omega) (by omega)
      (by norm_num [highAt, crossData])
  have p3 : peakAt crossData 1 3 = none :=
    peakAt_none_of_range _ _ _ (by norm_num [crossData])
  have t0 : troughAt crossData 1 0 = none :=
    troughAt_none_of_range _ _ _ (by norm_num)
  have t1 : troughAt crossData 1 1 = none :=
    troughAt_none_of_lt _ _ _ 0 (by omega) (by omega)
      (by norm_num [lowAt, crossData])
  have t2 : troughAt crossData 1 2 = none :=
    troughAt_none_of_lt _ _ _ 1 (by omega) (by omega)
      (by norm_num [lowAt, crossData])
  have t3 : troughAt crossData 1 3 = none :=
    troughAt_none_of_range _ _ _ (by norm_num [crossData])
  have hlen : crossData.length = 4 := rfl
  unfold get_last_peak_trough
  rw [hlen]
  simp [lastSome, p0, p1, p2, p3, t0, t1, t2, t3]

/-- C5 counterexample.  On `crossData` the most recent peak and trough are
both missing, yet `EMAMACDStrategy.evaluate` reports
`main_condition_met = true` (the claim requires it to be false); levels are
still not computed, and the note carries the `(Tepe/Dip bulunamadı)`
suffix. -/
theorem emaMacd_missing_pivot_main_true :
    (get_last_peak_trough crossData 1).1 = none ∧
    (get_last_peak_trough crossData 1).2 = none ∧
    (emaMacdEvaluate pCross 2 crossData).main_condition_met = true ∧
    (emaMacdEvaluate pCross 2 crossData).entry_price = none ∧
    (emaMacdEvaluate pCross 2 crossData).notes =
      "Fiyat EMA200 üzerinde, MACD yukarı kesti → LONG (Tepe/Dip bulunamadı)" := by
  have hpv := crossData_no_pivots
  refine ⟨by rw [hpv], by rw [hpv], ?_⟩
  have hp1 : (get_last_peak_trough crossData pCross.pivot_bars).1 = none := by
    rw [show pCross.pivot_bars = 1 from rfl, hpv]
  have hp2 : (get_last_peak_trough crossData pCross.pivot_bars).2 = none := by
    rw [show pCross.pivot_bars = 1 from rfl, hpv]
  simp only [emaMacdEvaluate, hp1, hp2]
  norm_num [pCross, crossData, closeAt, ewmaAt, macdAt, macdSignalAt]

lemma rollingMeanAtO_none_of_none (w : ℕ) (f : ℕ → Option ℚ) (i : ℕ)
    (hw : 1 ≤ w) (hf : f i = none) : rollingMeanAtO w f i = none := by
  unfold rollingMeanAtO
  split_ifs with h1 h2
  · rfl
  · exfalso
    push_neg at h1
    have hmem : f i ∈ (List.range w).map fun k => f (i + 1 - w + k) :=
      List.mem_map.mpr ⟨w - 1, List.mem_range.mpr (by omega), by congr 1; omega⟩
    have := List.all_eq_true.mp h2 _ hmem
    rw [hf] at this
    simp at this
  · rfl

lemma zero_range_aux (ps : ResistanceParams) (rrr : ℚ) (data : List Bar)
    (hk : 1 ≤ ps.stoch_k)
    (h0 : rsiRangeAt ps (closeAt data) (data.length - 1) = some 0) :
    stochKAt ps (closeAt data) (data.length - 1) = none ∧
    (resistanceEvaluate ps rrr data).main_condition_met = false := by
  have hrepl : rsiRangeReplAt ps (closeAt data) (data.length - 1) = none := by
    unfold rsiRangeReplAt
    rw [h0]
    simp
  have hsr : stochRsiAt ps (closeAt data) (data.length - 1) = none := by
    unfold stochRsiAt
    rw [hrepl]
    rcases rsiAt ps.rsi_period (closeAt data) (data.length - 1) with _ | r
    · rfl
    · rcases rsiMinAt ps (closeAt data) (data.length - 1) with _ | mn <;> rfl
  have hsk : stochKAt ps (closeAt data) (data.length - 1) = none :=
    rollingMeanAtO_none_of_none _ _ _ hk hsr
  refine ⟨hsk, ?_⟩
  simp only [resistanceEvaluate, hsk]
  split_ifs with hg hema
  · rfl
  · rcases (get_last_peak_trough data ps.pivot_bars).1 with _ | lpv <;>
      rcases (get_last_peak_trough data ps.pivot_bars).2 with _ | ltv <;>
      rcases stochKAt ps (closeAt data) (data.length - 1 - 1) with _ | pk <;>
      simp <;> split_ifs <;> rfl
  · rfl

/-- C9 (amended).  A zero denominator in the Stochastic-RSI
(`RSI_max − RSI_min = 0` at the current bar) is treated as a *missing*
value, not zero: `replace(0, nan)` makes the Stoch-RSI `NaN`, `%K` at the
current bar is therefore `NaN`, the momentum-confirmation cross is false,
and `evaluate` returns `main_condition_met = false` without raising any
division error (the embedding is total). -/
theorem stochrsi_zero_range_treated_missing (ps : ResistanceParams) (rrr : ℚ)
    (data : List Bar) (hk : 1 ≤ ps.stoch_k)
    (h0 : rsiRangeAt ps (closeAt data) (data.length - 1) = some 0) :
    stochKAt ps (closeAt data) (data.length - 1) = none ∧
    (resistanceEvaluate ps rrr data).main_condition_met = false :=
  zero_range_aux ps rrr data hk h0

/-- Five bars with strictly increasing Closes `1..5` (and increasing
Highs/Lows), so the RSI is the constant 100 and the Stoch-RSI denominator is
zero at the last bar. -/
def flatRsiData : List Bar := [⟨10, 1, 1⟩, ⟨11, 2, 2⟩, ⟨12, 3, 3⟩, ⟨13, 4, 4⟩, ⟨14, 5, 5⟩]

/-- Small-span parameters for `ResistanceBreakoutStrategy` (`ema_period = 2`,
`rsi_period = 2`, `stoch_period = 2`, `stoch_k = stoch_d = 1`,
`pivot_bars = 1`, `atr_period = 2`). -/
def ps9 : ResistanceParams := ⟨2, 2, 2, 1, 1, 20, 1, 2, 1/2⟩

lemma flatRsi_range_zero : rsiRangeAt ps9 (closeAt flatRsiData) 4 = some 0 := by
  norm_num [rsiRangeAt, rsiMaxAt, rsiMinAt, rollingMaxAtO, rollingMinAtO, ps9,
    rsiAt, rollingMeanAt, gainAt, lossAt, deltaAt, closeAt, flatRsiData,
    List.range_succ, List.max?, List.min?, List.filterMap, List.foldl, max_self]

/-- C9 counterexample.  On `flatRsiData` the Stoch-RSI denominator at the
last bar is zero, yet the indicator value is *not* zero: the RSI itself is
`100` (zero average loss) and `%K` is missing (`NaN`), so the claim's
"treated as zero" fails, while evaluation still completes with
`main_condition_met = false`. -/
theorem stochrsi_zero_range_not_zero :
    rsiRangeAt ps9 (closeAt flatRsiData) 4 = some 0 ∧
    rsiAt ps9.rsi_period (closeAt flatRsiData) 4 = some 100 ∧
    stochKAt ps9 (closeAt flatRsiData) 4 = none ∧
    stochKAt ps9 (closeAt flatRsiData) 4 ≠ some 0 ∧
    (resistanceEvaluate ps9 2 flatRsiData).main_condition_met = false := by
  have hlen : flatRsiData.length = 5 := rfl
  have haux := zero_range_aux ps9 2 flatRsiData (by norm_num [ps9])
    (by rw [hlen]; exact flatRsi_range_zero)
  rw [hlen] at haux
  refine ⟨flatRsi_range_zero, ?_, haux.1, by rw [haux.1]; simp, haux.2⟩
  norm_num [rsiAt, rollingMeanAt, gainAt, lossAt, deltaAt, closeAt, flatRsiData,
    ps9, List.range_succ]

/-- Witness for `stochrsi_zero_range_treated_missing` at `flatRsiData`. -/
theorem stochrsi_zero_range_treated_missing_witness :
    1 ≤ ps9.stoch_k ∧
    rsiRangeAt ps9 (closeAt flatRsiData) (flatRsiData.length - 1) = some 0 ∧
    (stochKAt ps9 (closeAt flatRsiData) (flatRsiData.length - 1) = none ∧
     (resistanceEvaluate ps9 2 flatRsiData).main_condition_met = false) :=
  ⟨by norm_num [ps9], flatRsi_range_zero,
   stochrsi_zero_range_treated_missing ps9 2 flatRsiData (by norm_num [ps9])
     flatRsi_range_zero⟩

/-! ## §4.3 Signal lifecycle state machine -/

/-- Signal statuses. -/
inductive Status
  | pending | triggered | entered | stopped | target_hit | cancelled | closed
deriving DecidableEq, Repr

/-- `status in ["pending", "triggered", "entered"]` — the non-terminal
statuses used by every existing-signal query. -/
def Status.isActive : Status → Bool
  | .pending | .triggered | .entered => true
  | _ => false

/-- Alert value stored in `extra_data["sl_tp_alert"]` by the simulation
scanner's `apply_sl_tp_alert`. -/
inductive SlTp | sl_hit | tp_hit
deriving DecidableEq, Repr

/-- A persisted `Signal` / `SimSignal` row (the fields the modelled
operations read or write; timestamps are modelled as presence flags). -/
structure Signal where
  status : Status
  longDir : Bool := true
  entry_price : Option ℚ := none
  stop_loss : Option ℚ := none
  take_profit : Option ℚ := none
  current_price : Option ℚ := none
  last_peak : Option ℚ := none
  last_trough : Option ℚ := none
  entry_reached : Bool := false
  entered_at : Bool := false          -- presence of the `entered_at` timestamp
  actual_entry_price : Option ℚ := none
  lots : Option ℚ := none
  remaining_lots : Option ℚ := none
  sl_tp_alert : Option SlTp := none   -- `extra_data["sl_tp_alert"]`
  notes : String := ""
deriving DecidableEq, Repr

/-- The data `_process_result` consumes: the `StrategyResult` fields plus
the last-candle High/Low `extra_data` entries injected by the simulation
scanner (`none` for the live scanner). -/
structure ScanResult where
  precondition_met : Bool
  main_condition_met : Bool
  longDir : Bool := true
  entry_price : Option ℚ := none
  stop_loss : Option ℚ := none
  take_profit : Option ℚ := none
  current_price : Option ℚ := none
  last_peak : Option ℚ := none
  last_trough : Option ℚ := none
  candle_high : Option ℚ := none
  candle_low : Option ℚ := none
  notes : String := ""
deriving DecidableEq, Repr

/-- Status part of `_close_signal` (trade-history recording is modelled in
the backtest section below). -/
def close_signal_status (s : Signal) (reason : Status) : Signal :=
  { s with status := reason }

/-- `_check_entry_exit` on a triggered signal (shared by both scanners
modulo notifications).  A `None` in a compared field raises `TypeError` in
the source, aborting the cycle before `db.commit()`; that abort is the
`none` result.  Python short-circuiting means `entry_price` is only
compared when the signal is `triggered` with `entry_reached` still
false. -/
def check_entry_exit (s : Signal) (r : ScanResult) : Option Signal :=
  match r.current_price with
  | none => none
  | some cp =>
    let s := { s with current_price := some cp }
    if s.longDir then
      match s.stop_loss with
      | none => none
      | some sl =>
        if cp ≤ sl then some (close_signal_status s .stopped)
        else
          match s.take_profit with
          | none => none
          | some tp =>
            if tp ≤ cp then some (close_signal_status s .target_hit)
            else if s.status = .triggered ∧ s.entry_reached = false then
              match s.entry_price with
              | none => none
              | some ep =>
                if ep ≤ cp then some { s with entry_reached := true } else some s
            else some s
    else
      match s.stop_loss with
      | none => none
      | some sl =>
        if sl ≤ cp then some (close_signal_status s .stopped)
        else
          match s.take_profit with
          | none => none
          | some tp =>
            if cp ≤ tp then some (close_signal_status s .target_hit)
            else if s.status = .triggered ∧ s.entry_reached = false then
              match s.entry_price with
              | none => none
              | some ep =>
                if cp ≤ ep then some { s with entry_reached := true } else some s
            else some s

/-- New `triggered` signal created when the main condition holds with no
reusable existing signal. -/
def newTriggered (r : ScanResult) : Signal :=
  { status := .triggered, longDir := r.longDir, entry_price := r.entry_price,
    stop_loss := r.stop_loss, take_profit := r.take_profit,
    current_price := r.current_price, last_peak := r.last_peak,
    last_trough := r.last_trough, notes := r.notes }

/-- New `pending` signal created when only the precondition holds. -/
def newPending (r : ScanResult) : Signal :=
  { status := .pending, longDir := r.longDir, current_price := r.current_price,
    last_peak := r.last_peak, last_trough := r.last_trough,
    notes := "Ön koşul sağlandı, ana koşul bekleniyor" }

/-- `_process_result` branches when the active-status query found no
existing signal. -/
def processNone (r : ScanResult) : List Signal :=
  if r.main_condition_met then [newTriggered r]
  else if r.precondition_met then [newPending r]
  else []

/-- `ScannerService._process_result` on the existing active signal: the
updated row plus newly created rows, or `none` when the source raised
before committing. -/
def processExisting (r : ScanResult) (s : Signal) : Option (Signal × List Signal) :=
  if r.main_condition_met then
    match s.status with
    | .triggered => (check_entry_exit s r).map (·, [])
    | .entered => some ({ s with current_price := r.current_price }, [])
    | _ =>
      some ({ s with status := .cancelled, notes := "Replaced by new signal" },
        [newTriggered r])
  else if r.precondition_met then
    match s.status with
    | .entered => some ({ s with current_price := r.current_price }, [])
    | .triggered =>
        (check_entry_exit { s with current_price := r.current_price } r).map (·, [])
    | .pending =>
        some ({ s with
          current_price := r.current_price, last_peak := r.last_peak,
          last_trough := r.last_trough }, [])
    | _ => some (s, [])
  else
    match s.status with
    | .pending =>
        some ({ s with status := .cancelled, notes := "Ön koşul artık sağlanmıyor" }, [])
    | .triggered =>
        (check_entry_exit { s with current_price := r.current_price } r).map (·, [])
    | .entered => some ({ s with current_price := r.current_price }, [])
    | _ => some (s, [])

/-- Python truthiness of an optional float: `None` and `0.0` are falsy. -/
def truthy : Option ℚ → Bool
  | none => false
  | some x => x ≠ 0

/-- `check_sl_tp_hit` inside `SimulationScanner._process_result`: intra-bar
stop/target detection against the last candle's High/Low range.  The
stop-loss comparison comes first in each direction. -/
def check_sl_tp_hit (r : ScanResult) (s : Signal) : Option SlTp :=
  if ¬(truthy r.candle_high) ∨ ¬(truthy r.candle_low) ∨
      ¬(truthy s.stop_loss) ∨ ¬(truthy s.take_profit) then none
  else
    let ch := r.candle_high.getD 0
    let cl := r.candle_low.getD 0
    let sl := s.stop_loss.getD 0
    let tp := s.take_profit.getD 0
    if s.longDir then
      if cl ≤ sl then some .sl_hit
      else if tp ≤ ch then some .tp_hit
      else none
    else
      if sl ≤ ch then some .sl_hit
      else if cl ≤ tp then some .tp_hit
      else none

/-- `apply_sl_tp_alert`: store the alert in `extra_data` (or drop a stale
one). -/
def apply_sl_tp_alert (r : ScanResult) (s : Signal) : Signal :=
  { s with sl_tp_alert := check_sl_tp_hit r s }

/-- `SimulationScanner._process_result` on the existing active signal: as
the live version, except that `entered` signals additionally get the
intra-bar SL/TP alert recorded. -/
def simProcessExisting (r : ScanResult) (s : Signal) : Option (Signal × List Signal) :=
  if r.main_condition_met then
    match s.status with
    | .triggered => (check_entry_exit s r).map (·, [])
    | .entered =>
        some (apply_sl_tp_alert r { s with current_price := r.current_price }, [])
    | _ =>
      some ({ s with status := .cancelled, notes := "Replaced by new signal" },
        [newTriggered r])
  else if r.precondition_met then
    match s.status with
    | .entered =>
        some (apply_sl_tp_alert r { s with current_price := r.current_price }, [])
    | .triggered =>
        (check_entry_exit { s with current_price := r.current_price } r).map (·, [])
    | .pending =>
        some ({ s with
          current_price := r.current_price, last_peak := r.last_peak,
          last_trough := r.last_trough }, [])
    | _ => some (s, [])
  else
    match s.status with
    | .pending =>
        some ({ s with status := .cancelled, notes := "Ön koşul artık sağlanmıyor" }, [])
    | .triggered =>
        (check_entry_exit { s with current_price := r.current_price } r).map (·, [])
    | .entered =>
        some (apply_sl_tp_alert r { s with current_price := r.current_price }, [])
    | _ => some (s, [])

/-- One live `_process_result` scan cycle over the stored rows of a fixed
`(ticker, strategy)` pair: the query takes the first row with non-terminal
status; `none` from the step means the source raised and nothing was
committed for this cycle. -/
def processResult (r : ScanResult) : List Signal → List Signal
  | [] => processNone r
  | s :: rest =>
    if s.status.isActive then
      match processExisting r s with
      | some (s', new) => s' :: rest ++ new
      | none => s :: rest
    else s :: processResult r rest

/-- One simulation `_process_result` scan cycle. -/
def simProcessResult (r : ScanResult) : List Signal → List Signal
  | [] => processNone r
  | s :: rest =>
    if s.status.isActive then
      match simProcessExisting r s with
      | some (s', new) => s' :: rest ++ new
      | none => s :: rest
    else s :: simProcessResult r rest

/-- Number of rows in non-terminal status. -/
def countActive (store : List Signal) : ℕ :=
  store.countP (·.status.isActive)

/-- Live scan cycles applied to the initially empty store of one
`(ticker, strategy)` pair. -/
def scanCycles (rs : List ScanResult) : List Signal :=
  rs.foldl (fun st r => processResult r st) []

/-- Simulation scan cycles from the empty store. -/
def simScanCycles (rs : List ScanResult) : List Signal :=
  rs.foldl (fun st r => simProcessResult r st) []

lemma processNone_count (r : ScanResult) : countActive (processNone r) ≤ 1 := by
  unfold processNone countActive
  split_ifs <;> simp [List.countP_cons] <;> split_ifs <;> omega

lemma processExisting_count (r : ScanResult) (s : Signal) (s' : Signal)
    (new : List Signal) (h : processExisting r s = some (s', new)) :
    countActive (s' :: new) ≤ 1 := by
  unfold processExisting at h
  split_ifs at h <;> cases hs : s.status <;> rw [hs] at h <;>
    simp only [Option.map_eq_some'] at h <;>
    first
      | (obtain ⟨x, hx, hxe⟩ := h
         cases hxe
         simp [countActive, List.countP_cons]
         split_ifs <;> omega)
      | (cases h
         simp [countActive, List.countP_cons, newTriggered, Status.isActive]
         try split_ifs <;> omega)

lemma simProcessExisting_count (r : ScanResult) (s : Signal) (s' : Signal)
    (new : List Signal) (h : simProcessExisting r s = some (s', new)) :
    countActive (s' :: new) ≤ 1 := by
  unfold simProcessExisting at h
  split_ifs at h <;> cases hs : s.status <;> rw [hs] at h <;>
    simp only [Option.map_eq_some'] at h <;>
    first
      | (obtain ⟨x, hx, hxe⟩ := h
         cases hxe
         simp [countActive, List.countP_cons]
         split_ifs <;> omega)
      | (cases h
         simp [countActive, List.countP_cons, newTriggered, Status.isActive]
         try split_ifs <;> omega)

lemma processResult_preserves (r : ScanResult) :
    ∀ st : List Signal, countActive st ≤ 1 →
      countActive (processResult r st) ≤ 1 := by
  intro st
  induction st with
  | nil => intro _; exact processNone_count r
  | cons s rest ih =>
    intro h
    unfold countActive at h
    rw [List.countP_cons] at h
    unfold processResult
    split_ifs with hact
    · rw [hact] at h
      rw [if_pos rfl] at h
      have hrest : rest.countP (fun x => x.status.isActive) = 0 := by omega
      cases hpe : processExisting r s with
      | none =>
        unfold countActive
        simp only [List.countP_cons, hact, eq_self_iff_true, if_true]
        omega
      | some pair =>
        obtain ⟨s', new⟩ := pair
        have hcnt := processExisting_count r s s' new hpe
        unfold countActive at hcnt ⊢
        rw [List.countP_cons] at hcnt
        simp only [List.countP_cons, List.countP_append]
        omega
    · have hact' : s.status.isActive = false := by
        revert hact; cases s.status.isActive <;> simp
      rw [hact'] at h
      simp only [Bool.false_eq_true, if_false, add_zero] at h
      have h2 := ih (by unfold countActive; omega)
      unfold countActive at h2 ⊢
      simp only [List.countP_cons, hact', Bool.false_eq_true, if_false, add_zero]
      exact h2

lemma simProcessResult_preserves (r : ScanResult) :
    ∀ st : List Signal, countActive st ≤ 1 →
      countActive (simProcessResult r st) ≤ 1 := by
  intro st
  induction st with
  | nil => intro _; exact processNone_count r
  | cons s rest ih =>
    intro h
    unfold countActive at h
    rw [List.countP_cons] at h
    unfold simProcessResult
    split_ifs with hact
    · rw [hact] at h
      rw [if_pos rfl] at h
      have hrest : rest.countP (fun x => x.status.isActive) = 0 := by omega
      cases hpe : simProcessExisting r s with
      | none =>
        unfold countActive
        simp only [List.countP_cons, hact, eq_self_iff_true, if_true]
        omega
      | some pair =>
        obtain ⟨s', new⟩ := pair
        have hcnt := simProcessExisting_count r s s' new hpe
        unfold countActive at hcnt ⊢
        rw [List.countP_cons] at hcnt
        simp only [List.countP_cons, List.countP_append]
        omega
    · have hact' : s.status.isActive = false := by
        revert hact; cases s.status.isActive <;> simp
      rw [hact'] at h
      simp only [Bool.false_eq_true, if_false, add_zero] at h
      have h2 := ih (by unfold countActive; omega)
      unfold countActive at h2 ⊢
      simp only [List.countP_cons, hact', Bool.false_eq_true, if_false, add_zero]
      exact h2

lemma foldl_preserves_le_one (step : ScanResult → List Signal → List Signal)
    (hstep : ∀ r st, countActive st ≤ 1 → countActive (step r st) ≤ 1) :
    ∀ (rs : List ScanResult) (st : List Signal), countActive st ≤ 1 →
      countActive (rs.foldl (fun acc r => step r acc) st) ≤ 1 := by
  intro rs
  induction rs with
  | nil => intro st h; exact h
  | cons r rest ih => intro st h; exact ih _ (hstep r st h)

/-- C1.  For every sequence of `_process_result` scan cycles on a fixed
`(ticker, strategy)` pair — live or simulation — the store never holds two
rows whose status is simultaneously in `{pending, triggered, entered}`:
each cycle mutates the single existing non-terminal signal or cancels it
before creating a replacement. -/
theorem at_most_one_active_signal (rs : List ScanResult) :
    countActive (scanCycles rs) ≤ 1 ∧ countActive (simScanCycles rs) ≤ 1 :=
  ⟨foldl_preserves_le_one processResult processResult_preserves rs []
      (by simp [countActive]),
   foldl_preserves_le_one simProcessResult simProcessResult_preserves rs []
      (by simp [countActive])⟩

/-! ## §6 Manual control endpoints (`web_api/routers/strategies.py`)

Each endpoint is modelled as `Signal → … → Signal × Option String`: the
first component is the row after the call, the second the `HTTPException`
detail when one was raised (raising happens before any mutation is
committed, so the row is returned unchanged in that case). -/

/-- Request body of `confirm-entry`. -/
structure ConfirmEntryRequest where
  actual_entry_price : ℚ
  lots : ℚ
  stop_loss : Option ℚ := none
  take_profit : Option ℚ := none
deriving DecidableEq, Repr

/-- `cancel_signal` endpoint.  Note the guard list: `"closed"` is missing
from `["stopped", "target_hit", "cancelled"]`. -/
def cancel_signal (s : Signal) : Signal × Option String :=
  if s.status = .stopped ∨ s.status = .target_hit ∨ s.status = .cancelled then
    (s, some "Signal already closed")
  else
    ({ s with status := .cancelled, notes := "Manually cancelled" }, none)

/-- `confirm_entry` endpoint (accepts both `triggered` and `pending`). -/
def confirm_entry (s : Signal) (req : ConfirmEntryRequest) : Signal × Option String :=
  if ¬(s.status = .triggered ∨ s.status = .pending) then
    (s, some "Signal must be in triggered or pending state")
  else
    ({ s with
      status := .entered, entered_at := true
      actual_entry_price := some req.actual_entry_price
      lots := some req.lots, remaining_lots := some req.lots
      stop_loss := match req.stop_loss with | some v => some v | none => s.stop_loss
      take_profit := match req.take_profit with | some v => some v | none => s.take_profit
      notes := "Entered @ actual_entry_price x lots lot" }, none)

/-- `close_position` endpoint (live scanner; the TradeHistory row it appends
is not tracked by this model).  Python exceptions raised during the
profit computation (`None` comparison, division by zero) happen before any
mutation and are modelled as error strings. -/
def close_position (s : Signal) (exit_price lots_to_sell : ℚ) : Signal × Option String :=
  if ¬(s.status = .entered) then
    (s, some "Signal must be in entered state to close")
  else if lots_to_sell ≤ 0 then
    (s, some "Lots must be greater than 0")
  else
    match s.remaining_lots with
    | none => (s, some "TypeError: remaining_lots is None")
    | some rem =>
      if rem < lots_to_sell then
        (s, some "Cannot sell more lots than remaining")
      else
        match (if truthy s.actual_entry_price then s.actual_entry_price else s.entry_price) with
        | none => (s, some "TypeError: entry price is None")
        | some entry =>
          if entry = 0 then (s, some "ZeroDivisionError")
          else
            let remaining := rem - lots_to_sell
            if remaining ≤ 0 then
              ({ s with
                status := .closed, remaining_lots := some remaining
                notes := "Fully closed" }, none)
            else
              ({ s with
                remaining_lots := some remaining
                notes := "Partial exit" }, none)

/-- A signal that reached the terminal `closed` status. -/
def closedSignal : Signal :=
  { status := .closed, longDir := true, entry_price := some 100,
    stop_loss := some 95, take_profit := some 110, entry_reached := true,
    entered_at := true, actual_entry_price := some 100, lots := some 1,
    remaining_lots := some 0 }

/-- C2.  The terminal statuses `stopped`, `target_hit` and `cancelled` are
rejected by `cancel_signal` ("Signal already closed"), but a signal in the
terminal status `closed` slips through the guard: the endpoint raises no
error and rewrites its status to `cancelled`, contradicting the documented
terminal-state rule (and the guard's own error message). -/
theorem cancel_signal_mutates_closed :
    (cancel_signal closedSignal).2 = none ∧
    closedSignal.status = .closed ∧
    (cancel_signal closedSignal).1.status = .cancelled ∧
    cancel_signal { closedSignal with status := .stopped } =
      ({ closedSignal with status := .stopped }, some "Signal already closed") ∧
    cancel_signal { closedSignal with status := .target_hit } =
      ({ closedSignal with status := .target_hit }, some "Signal already closed") ∧
    cancel_signal { closedSignal with status := .cancelled } =
      ({ closedSignal with status := .cancelled }, some "Signal already closed") :=
  ⟨rfl, rfl, rfl, rfl, rfl, rfl⟩

/-- C8 (amended).  `confirm_entry` rejects, with a descriptive error and no
state change, every signal whose status is neither `triggered` nor
`pending` — in particular every terminal signal and every `entered`
signal.  (The claim's "only triggered" is too strong: `pending` is also
accepted, see `confirm_entry_accepts_pending`.) -/
theorem confirm_entry_rejects_others (s : Signal) (req : ConfirmEntryRequest)
    (h1 : s.status ≠ .triggered) (h2 : s.status ≠ .pending) :
    confirm_entry s req = (s, some "Signal must be in triggered or pending state") := by
  unfold confirm_entry
  rw [if_pos (by tauto)]

/-- Demo request for the concrete endpoint evaluations. -/
def demoReq : ConfirmEntryRequest := ⟨100, 2, none, none⟩

/-- C8 counterexample.  A `pending` (non-triggered) signal is *accepted* by
`confirm_entry` and moves straight to `entered`, so "rejected for every
signal whose status is not `triggered`" fails. -/
theorem confirm_entry_accepts_pending :
    ({ status := .pending : Signal }).status ≠ .triggered ∧
    (confirm_entry { status := .pending } demoReq).2 = none ∧
    (confirm_entry { status := .pending } demoReq).1.status = .entered :=
  ⟨by decide, rfl, rfl⟩

/-- Witness for `confirm_entry_rejects_others` on a `stopped` signal. -/
theorem confirm_entry_rejects_others_witness :
    ({ status := .stopped : Signal }).status ≠ .triggered ∧
    ({ status := .stopped : Signal }).status ≠ .pending ∧
    confirm_entry { status := .stopped } demoReq =
      ({ status := .stopped }, some "Signal must be in triggered or pending state") :=
  ⟨by decide, by decide,
    confirm_entry_rejects_others { status := .stopped } demoReq (by decide) (by decide)⟩

/-! ## §4.5 Backtest auto-trading and balance accounting
(`simulation_scanner.py`, `web_api/database.py`) -/

/-- `result` column of a trade-history row. -/
inductive TradeResult | win | loss | breakeven
deriving DecidableEq, Repr

/-- A `SimTradeHistory` row (the columns the modelled claims read; the
`risk_reward_achieved` column and identification columns are omitted). -/
structure Trade where
  longDir : Bool
  entry_price : ℚ
  exit_price : ℚ
  result : TradeResult
  profit_percent : ℚ   -- stored `round(_, 2)`ed
  profit_tl : ℚ        -- stored `round(_, 2)`ed
  lots : ℚ
deriving DecidableEq, Repr

/-- The balance part of the `SimulationTimeManager` singleton together with
the `SimTradeHistory` table. -/
structure SimState where
  initial_balance : ℚ
  current_balance : ℚ
  total_profit : ℚ
  total_trades : ℕ
  winning_trades : ℕ
  losing_trades : ℕ
  trades : List Trade
deriving DecidableEq, Repr

/-- `SimulationTimeManager.start`: reseed the balance and zero the counters
(the start endpoint clears the simulation tables). -/
def simStart (initial_balance : ℚ) : SimState :=
  { initial_balance := initial_balance, current_balance := initial_balance,
    total_profit := 0, total_trades := 0, winning_trades := 0,
    losing_trades := 0, trades := [] }

/-- `_backtest_close_position`: record a trade row, credit
`exit_price · lots` back to the balance, bump the counters, and move the
signal to `reason` with `remaining_lots = 0`.  `none` models the
`TypeError`/`ZeroDivisionError` the source raises when the entry price is
missing or zero. -/
def backtest_close_position (st : SimState) (s : Signal) (exit_price : ℚ)
    (reason : Status) : Option (SimState × Signal) :=
  match (if truthy s.actual_entry_price then s.actual_entry_price else s.entry_price) with
  | none => none
  | some entry_price =>
    if entry_price = 0 then none
    else
      let lots := if truthy s.lots then s.lots.getD 0 else 1
      let profit_percent :=
        if s.longDir then (exit_price - entry_price) / entry_price * 100
        else (entry_price - exit_price) / entry_price * 100
      let profit_tl :=
        if s.longDir then (exit_price - entry_price) * lots
        else (entry_price - exit_price) * lots
      let result := if 0 < profit_percent then TradeResult.win else TradeResult.loss
      let trade : Trade :=
        { longDir := s.longDir, entry_price := entry_price,
          exit_price := exit_price, result := result,
          profit_percent := round2 profit_percent,
          profit_tl := round2 profit_tl, lots := lots }
      some
        ({ st with
            current_balance := st.current_balance + exit_price * lots
            total_profit := st.total_profit + profit_tl
            total_trades := st.total_trades + 1
            winning_trades := st.winning_trades + (if result = .win then 1 else 0)
            losing_trades := st.losing_trades + (if result = .win then 0 else 1)
            trades := st.trades ++ [trade] },
         { s with
           status := reason, remaining_lots := some 0
           notes := "Backtest close" })

/-- `SimulationScanner._close_signal`: the status moves to `reason` first;
a trade row, balance credit and counters happen only when the signal had
actually been entered (`entered_at` set). -/
def sim_close_signal (st : SimState) (s : Signal) (reason : Status)
    (exit_price : ℚ) : Option (SimState × Signal) :=
  let s := { s with status := reason }
  if s.entered_at then
    match (if truthy s.actual_entry_price then s.actual_entry_price else s.entry_price) with
    | none => none
    | some entry_price =>
      if entry_price = 0 then none
      else
        let lots0 := s.lots.getD 0     -- `signal.lots or 0`
        let profit_percent :=
          if s.longDir then (exit_price - entry_price) / entry_price * 100
          else (entry_price - exit_price) / entry_price * 100
        let result := if 0 < profit_percent then TradeResult.win else TradeResult.loss
        let profit_tl :=
          if s.longDir then (exit_price - entry_price) * lots0
          else (entry_price - exit_price) * lots0
        let trade : Trade :=
          { longDir := s.longDir, entry_price := entry_price,
            exit_price := exit_price, result := result,
            profit_percent := round2 profit_percent,
            profit_tl := round2 profit_tl, lots := lots0 }
        some
          ({ st with
              current_balance := st.current_balance + exit_price * lots0
              total_profit := st.total_profit + profit_tl
              total_trades := st.total_trades + 1
              winning_trades := st.winning_trades + (if result = .win then 1 else 0)
              losing_trades := st.losing_trades + (if result = .win then 0 else 1)
              trades := st.trades ++ [trade] },
           { s with notes := "Closed by reason" })
  else some (st, { s with notes := "Closed by reason" })

/-- Exit half of `_backtest_auto_trade` for one signal: an `entered` signal
with a recorded intra-bar alert is closed at the exact stop/target price
(Python truthiness guards the level: a zero level disables the exit).  A
crash inside the close (`none`) rolls the session back, leaving state
unchanged. -/
def backtest_auto_exit (st : SimState) (s : Signal) : SimState × Signal :=
  if s.status = .entered then
    match s.sl_tp_alert with
    | some .sl_hit =>
      if truthy s.stop_loss then
        (backtest_close_position st s (s.stop_loss.getD 0) .stopped).getD (st, s)
      else (st, s)
    | some .tp_hit =>
      if truthy s.take_profit then
        (backtest_close_position st s (s.take_profit.getD 0) .target_hit).getD (st, s)
      else (st, s)
    | none => (st, s)
  else (st, s)

/-- Entry half of `_backtest_auto_trade` for one signal: a `triggered`
signal with `entry_reached` is entered with 1 lot at its entry price,
deducting `entry_price · lots` from the balance; a falsy entry price or an
insufficient balance silently skips the entry. -/
def backtest_auto_enter (st : SimState) (s : Signal) : SimState × Signal :=
  if s.status = .triggered ∧ s.entry_reached = true then
    if ¬(truthy s.entry_price) then (st, s)
    else
      let entry := s.entry_price.getD 0
      let lots : ℚ := 1
      let position_cost := entry * lots
      if st.current_balance < position_cost then (st, s)
      else
        ({ st with current_balance := st.current_balance - position_cost },
         { s with
           status := .entered, entered_at := true
           actual_entry_price := some entry, lots := some lots
           remaining_lots := some lots, notes := "Backtest auto-entry" })
  else (st, s)

/-- Thread the balance state through a per-signal step over the table. -/
def mapAccum (f : SimState → Signal → SimState × Signal) :
    SimState → List Signal → SimState × List Signal
  | st, [] => (st, [])
  | st, s :: rest =>
    let p := f st s
    let q := mapAccum f p.1 rest
    (q.1, p.2 :: q.2)

/-- `_backtest_auto_trade`: auto-exit every entered signal, then auto-enter
every triggered one whose entry was reached. -/
def backtest_auto_trade (st : SimState) (ss : List Signal) : SimState × List Signal :=
  let p := mapAccum backtest_auto_exit st ss
  mapAccum backtest_auto_enter p.1 p.2

/-- `_backtest_close_eod_positions` for one signal: force-close an
`entered` position at `signal.current_price or signal.entry_price` with
reason `stopped`. -/
def backtest_eod_close_one (st : SimState) (s : Signal) : SimState × Signal :=
  if s.status = .entered then
    match (if truthy s.current_price then s.current_price else s.entry_price) with
    | none => (st, s)
    | some eod => (backtest_close_position st s eod .stopped).getD (st, s)
  else (st, s)

/-- `_backtest_close_eod_positions` over the table. -/
def backtest_eod_close (st : SimState) (ss : List Signal) : SimState × List Signal :=
  mapAccum backtest_eod_close_one st ss

/-- One unit of work of the automated backtest loop. -/
inductive BtEvent
  | scan (r : ScanResult)
  | autoTrade
  | eodClose
deriving Repr

/-- Apply one backtest event to the balance state and the signal table of
the scanned pair. -/
def btStep : SimState × List Signal → BtEvent → SimState × List Signal
  | (st, ss), .scan r => (st, simProcessResult r ss)
  | (st, ss), .autoTrade => backtest_auto_trade st ss
  | (st, ss), .eodClose => backtest_eod_close st ss

/-- A backtest run: `SimulationTimeManager.start` (clean tables, reseeded
balance) followed by the trace of events. -/
def btRun (b0 : ℚ) (evs : List BtEvent) : SimState × List Signal :=
  evs.foldl btStep (simStart b0, [])

/-- Exact cash effect of a recorded trade: what the close credited minus
what the entry deducted. -/
def tradeDelta (t : Trade) : ℚ := (t.exit_price - t.entry_price) * t.lots

/-- Sum of exact cash deltas over the trade table. -/
def sumDeltas (ts : List Trade) : ℚ := (ts.map tradeDelta).sum

/-- Sum of the recorded (rounded, direction-signed) `profit_tl` column. -/
def sumProfitTl (ts : List Trade) : ℚ := (ts.map (·.profit_tl)).sum

/-- Cash locked in an open position: `actual_entry_price · lots` for an
`entered` signal. -/
def entCost (s : Signal) : ℚ :=
  if s.status = .entered then s.actual_entry_price.getD 0 * s.lots.getD 0 else 0

/-- Sum of locked-in cash over the signal table. -/
def sumCost (ss : List Signal) : ℚ := (ss.map entCost).sum

/-- Every `entered` row was entered by the auto-trader: nonzero actual
entry price and exactly 1 lot. -/
def EnteredOk (s : Signal) : Prop :=
  s.status = .entered → truthy s.actual_entry_price = true ∧ s.lots = some 1

/-- C10.  Every trade recorded by the simulation/backtest scanner — by the
intra-bar auto-close (`_backtest_close_position`) or by `_close_signal` —
has `result = "win"` iff the computed profit percent is strictly positive
and `result = "loss"` otherwise; `"breakeven"` is never produced, and an
exit exactly at the entry price is recorded as a loss. -/
theorem sim_trade_result_never_breakeven (st : SimState) (s : Signal) (ep : ℚ)
    (reason : Status) :
    (∀ st' s', backtest_close_position st s ep reason = some (st', s') →
      ∃ t, st'.trades = st.trades ++ [t] ∧ t.result ≠ .breakeven ∧
        (t.result = .win ↔
          0 < (if s.longDir then (ep - t.entry_price) / t.entry_price * 100
               else (t.entry_price - ep) / t.entry_price * 100)) ∧
        (ep = t.entry_price → t.result = .loss)) ∧
    (∀ st' s', s.entered_at = true → sim_close_signal st s reason ep = some (st', s') →
      ∃ t, st'.trades = st.trades ++ [t] ∧ t.result ≠ .breakeven ∧
        (t.result = .win ↔
          0 < (if s.longDir then (ep - t.entry_price) / t.entry_price * 100
               else (t.entry_price - ep) / t.entry_price * 100)) ∧
        (ep = t.entry_price → t.result = .loss)) := by
  constructor
  · intro st' s' h
    unfold backtest_close_position at h
    cases hE : (if truthy s.actual_entry_price then s.actual_entry_price else s.entry_price) with
    | none => rw [hE] at h; exact absurd h (by simp)
    | some e =>
      simp only [hE] at h
      by_cases he0 : e = 0
      · rw [if_pos he0] at h
        exact absurd h (by simp)
      · rw [if_neg he0, Option.some_inj] at h
        injection h with hst hs'
        subst hst
        refine ⟨_, rfl, ?_, ?_, ?_⟩
        · dsimp only
          split_ifs <;> decide
        · dsimp only
          by_cases hpp : 0 < (if s.longDir = true then (ep - e) / e * 100
              else (e - ep) / e * 100) <;>
            simp [hpp]
        · intro hee
          dsimp only at hee ⊢
          have hPP : ¬ (0 < (if s.longDir = true then (ep - e) / e * 100
              else (e - ep) / e * 100)) := by
            rw [hee]
            split_ifs <;> simp [sub_self]
          rw [if_neg hPP]
  · intro st' s' hent h
    unfold sim_close_signal at h
    simp only [hent] at h
    rw [if_pos trivial] at h
    cases hE : (if truthy s.actual_entry_price then s.actual_entry_price else s.entry_price) with
    | none => rw [hE] at h; exact absurd h (by simp)
    | some e =>
      simp only [hE] at h
      by_cases he0 : e = 0
      · rw [if_pos he0] at h
        exact absurd h (by simp)
      · rw [if_neg he0, Option.some_inj] at h
        injection h with hst hs'
        subst hst
        refine ⟨_, rfl, ?_, ?_, ?_⟩
        · dsimp only
          split_ifs <;> decide
        · dsimp only
          by_cases hpp : 0 < (if s.longDir = true then (ep - e) / e * 100
              else (e - ep) / e * 100) <;>
            simp [hpp]
        · intro hee
          dsimp only at hee ⊢
          have hPP : ¬ (0 < (if s.longDir = true then (ep - e) / e * 100
              else (e - ep) / e * 100)) := by
            rw [hee]
            split_ifs <;> simp [sub_self]
          rw [if_neg hPP]

/-- A position entered at 100 with 1 lot, for concrete evaluations. -/
def btWitSig : Signal :=
  { status := .entered, longDir := true, entry_price := some 100,
    stop_loss := some 95, take_profit := some 110, entry_reached := true,
    entered_at := true, actual_entry_price := some 100, lots := some 1,
    remaining_lots := some 1 }

/-- The trade `_backtest_close_position` records when `btWitSig` exits at
exactly its entry price: a `loss` with zero profit. -/
def btWitTrade : Trade := ⟨true, 100, 100, .loss, 0, 0, 1⟩

/-- Balance state after that close. -/
def btWitState : SimState := ⟨1000, 1100, 0, 1, 0, 1, [btWitTrade]⟩

/-- `btWitSig` after that close. -/
def btWitSigClosed : Signal :=
  { btWitSig with
    status := .stopped, remaining_lots := some 0
    notes := "Backtest close" }

lemma btWit_close_eval :
    backtest_close_position (simStart 1000) btWitSig 100 .stopped =
      some (btWitState, btWitSigClosed) := by
  norm_num [backtest_close_position, btWitSig, simStart, truthy, round2, rhe,
    btWitState, btWitSigClosed, btWitTrade]
  decide

/-- Witness for `sim_trade_result_never_breakeven`: an exit exactly at the
entry price records a `loss` (never `breakeven`). -/
theorem sim_trade_result_never_breakeven_witness :
    ∃ t, btWitState.trades = (simStart 1000).trades ++ [t] ∧
      t.result ≠ .breakeven ∧
      (t.result = .win ↔
        0 < (if btWitSig.longDir then ((100 : ℚ) - t.entry_price) / t.entry_price * 100
             else (t.entry_price - 100) / t.entry_price * 100)) ∧
      ((100 : ℚ) = t.entry_price → t.result = .loss) :=
  (sim_trade_result_never_breakeven (simStart 1000) btWitSig 100 .stopped).1
    btWitState btWitSigClosed btWit_close_eval

/-! ## C6: stop-loss priority on simultaneous intra-bar breach -/

lemma backtest_close_some (st : SimState) (s : Signal) (ep : ℚ) (reason : Status)
    (e : ℚ)
    (he : (if truthy s.actual_entry_price then s.actual_entry_price else s.entry_price) = some e)
    (he0 : e ≠ 0) :
    ∃ ST S', backtest_close_position st s ep reason = some (ST, S') ∧
      S'.status = reason ∧ ∃ t, ST.trades = st.trades ++ [t] ∧ t.exit_price = ep := by
  unfold backtest_close_position
  simp only [he]
  rw [if_neg he0]
  exact ⟨_, _, rfl, rfl, _, rfl, rfl⟩

/-- C6 (amended).  In backtest mode, when the last candle's Low–High range
breaches both the stop and the target of an `entered` signal — and the
levels and candle extremes are nonzero, since a zero value disables the
check through Python truthiness (see `backtest_zero_stop_not_closed`) —
the stop-loss check is applied first: the recorded alert is `sl_hit`, the
auto-trader moves the signal to `stopped` (not `target_hit`), and exactly
one trade row is appended, with exit price equal to the stop loss.
Mirrored for shorts. -/
theorem backtest_stop_priority (st : SimState) (r : ScanResult) (s : Signal)
    (ch cl sl tp e : ℚ)
    (hch : r.candle_high = some ch) (hcl : r.candle_low = some cl)
    (hsl : s.stop_loss = some sl) (htp : s.take_profit = some tp)
    (hch0 : ch ≠ 0) (hcl0 : cl ≠ 0) (hsl0 : sl ≠ 0) (htp0 : tp ≠ 0)
    (hst : s.status = .entered)
    (he : (if truthy s.actual_entry_price then s.actual_entry_price else s.entry_price) = some e)
    (he0 : e ≠ 0) :
    (s.longDir = true → cl ≤ sl → tp ≤ ch →
      (apply_sl_tp_alert r { s with current_price := r.current_price }).sl_tp_alert =
        some .sl_hit ∧
      (backtest_auto_exit st
        (apply_sl_tp_alert r { s with current_price := r.current_price })).2.status =
        .stopped ∧
      ∃ t, (backtest_auto_exit st
          (apply_sl_tp_alert r { s with current_price := r.current_price })).1.trades =
          st.trades ++ [t] ∧ t.exit_price = sl) ∧
    (s.longDir = false → sl ≤ ch → cl ≤ tp →
      (apply_sl_tp_alert r { s with current_price := r.current_price }).sl_tp_alert =
        some .sl_hit ∧
      (backtest_auto_exit st
        (apply_sl_tp_alert r { s with current_price := r.current_price })).2.status =
        .stopped ∧
      ∃ t, (backtest_auto_exit st
          (apply_sl_tp_alert r { s with current_price := r.current_price })).1.trades =
          st.trades ++ [t] ∧ t.exit_price = sl) := by
  have h1sl : (apply_sl_tp_alert r { s with current_price := r.current_price }).stop_loss
      = some sl := by simp [apply_sl_tp_alert, hsl]
  have h1st : (apply_sl_tp_alert r { s with current_price := r.current_price }).status
      = .entered := by simp [apply_sl_tp_alert, hst]
  have h1he : (if truthy (apply_sl_tp_alert r { s with current_price := r.current_price }).actual_entry_price
      then (apply_sl_tp_alert r { s with current_price := r.current_price }).actual_entry_price
      else (apply_sl_tp_alert r { s with current_price := r.current_price }).entry_price) = some e := by
    simpa [apply_sl_tp_alert] using he
  constructor
  · intro hdir hbsl hbtp
    have hchk : check_sl_tp_hit r
        (apply_sl_tp_alert r { s with current_price := r.current_price }) = some .sl_hit := by
      simp [check_sl_tp_hit, apply_sl_tp_alert, hch, hcl, hsl, htp, truthy,
        hch0, hcl0, hsl0, htp0, hdir, hbsl]
    have halert : (apply_sl_tp_alert r { s with current_price := r.current_price }).sl_tp_alert
        = check_sl_tp_hit r { s with current_price := r.current_price } := rfl
    have hchk0 : check_sl_tp_hit r { s with current_price := r.current_price } = some .sl_hit := by
      simp [check_sl_tp_hit, hch, hcl, hsl, htp, truthy,
        hch0, hcl0, hsl0, htp0, hdir, hbsl]
    obtain ⟨ST, S', hclose, hSst, t, htr, hex⟩ :=
      backtest_close_some st (apply_sl_tp_alert r { s with current_price := r.current_price })
        sl .stopped e h1he he0
    have hae : backtest_auto_exit st
        (apply_sl_tp_alert r { s with current_price := r.current_price }) = (ST, S') := by
      unfold backtest_auto_exit
      rw [if_pos h1st]
      rw [halert] at *
      simp only [hchk0, h1sl, Option.getD_some]
      rw [if_pos (show truthy (some sl) = true by simp [truthy, hsl0])]
      rw [hclose]
      rfl
    rw [halert]
    exact ⟨hchk0, by rw [hae]; exact hSst, t, by rw [hae]; exact htr, hex⟩
  · intro hdir hbsl hbtp
    have hchk0 : check_sl_tp_hit r { s with current_price := r.current_price } = some .sl_hit := by
      simp [check_sl_tp_hit, hch, hcl, hsl, htp, truthy,
        hch0, hcl0, hsl0, htp0, hdir, hbsl]
    have halert : (apply_sl_tp_alert r { s with current_price := r.current_price }).sl_tp_alert
        = check_sl_tp_hit r { s with current_price := r.current_price } := rfl
    obtain ⟨ST, S', hclose, hSst, t, htr, hex⟩ :=
      backtest_close_some st (apply_sl_tp_alert r { s with current_price := r.current_price })
        sl .stopped e h1he he0
    have hae : backtest_auto_exit st
        (apply_sl_tp_alert r { s with current_price := r.current_price }) = (ST, S') := by
      unfold backtest_auto_exit
      rw [if_pos h1st]
      rw [halert] at *
      simp only [hchk0, h1sl, Option.getD_some]
      rw [if_pos (show truthy (some sl) = true by simp [truthy, hsl0])]
      rw [hclose]
      rfl
    rw [halert]
    exact ⟨hchk0, by rw [hae]; exact hSst, t, by rw [hae]; exact htr, hex⟩

/-- Scan data whose last candle (Low 94, High 111) breaches both the stop
(95) and the target (110) of `btWitSig`. -/
def stopR : ScanResult :=
  { precondition_met := false, main_condition_met := false,
    candle_high := some 111, candle_low := some 94, current_price := some 95 }

/-- Witness for `backtest_stop_priority` at the spec's Scenario-B levels
(stop 95, target 110) with a bar covering both. -/
theorem backtest_stop_priority_witness :
    ((94 : ℚ) ≤ 95 ∧ (110 : ℚ) ≤ 111) ∧
    ((apply_sl_tp_alert stopR { btWitSig with current_price := stopR.current_price }).sl_tp_alert =
        some .sl_hit ∧
      (backtest_auto_exit (simStart 1000)
        (apply_sl_tp_alert stopR { btWitSig with current_price := stopR.current_price })).2.status =
        .stopped ∧
      ∃ t, (backtest_auto_exit (simStart 1000)
          (apply_sl_tp_alert stopR { btWitSig with current_price := stopR.current_price })).1.trades =
          (simStart 1000).trades ++ [t] ∧ t.exit_price = 95) :=
  ⟨⟨by norm_num, by norm_num⟩,
   (backtest_stop_priority (simStart 1000) stopR btWitSig 111 94 95 110 100
     rfl rfl rfl rfl (by norm_num) (by norm_num) (by norm_num) (by norm_num)
     rfl (by norm_num [btWitSig, truthy]) (by norm_num)).1
     rfl (by norm_num) (by norm_num)⟩

/-- An `entered` long position whose stop loss is exactly `0.0`. -/
def zeroStopSig : Signal :=
  { status := .entered, longDir := true, entry_price := some 100,
    stop_loss := some 0, take_profit := some 110, entered_at := true,
    actual_entry_price := some 100, lots := some 1 }

/-- Scan data whose last candle (Low −1, High 111) contains both the zero
stop and the target 110. -/
def zeroR : ScanResult :=
  { precondition_met := false, main_condition_met := false,
    candle_high := some 111, candle_low := some (-1), current_price := some 50 }

/-- C6 counterexample.  The bar `[−1, 111]` contains both the stop (0) and
the target (110) of `zeroStopSig`, yet Python truthiness (`0.0` is falsy)
disables `check_sl_tp_hit` entirely: no alert is recorded, the auto-trader
leaves the position `entered`, no trade row is written and the balance
state is untouched — the claim's "transitions to stopped with exit at
stop_loss" fails. -/
theorem backtest_zero_stop_not_closed :
    zeroStopSig.status = .entered ∧ zeroStopSig.longDir = true ∧
    zeroStopSig.stop_loss = some 0 ∧ zeroStopSig.take_profit = some 110 ∧
    zeroR.candle_low = some (-1) ∧ zeroR.candle_high = some 111 ∧
    ((-1 : ℚ) ≤ 0 ∧ (110 : ℚ) ≤ 111) ∧
    check_sl_tp_hit zeroR { zeroStopSig with current_price := zeroR.current_price } = none ∧
    backtest_auto_exit (simStart 1000)
      (apply_sl_tp_alert zeroR { zeroStopSig with current_price := zeroR.current_price }) =
      (simStart 1000,
        apply_sl_tp_alert zeroR { zeroStopSig with current_price := zeroR.current_price }) ∧
    (apply_sl_tp_alert zeroR { zeroStopSig with current_price := zeroR.current_price }).status =
      .entered := by
  have hchk : check_sl_tp_hit zeroR
      { zeroStopSig with current_price := zeroR.current_price } = none := by
    norm_num [check_sl_tp_hit, zeroStopSig, zeroR, truthy]
  refine ⟨rfl, rfl, rfl, rfl, rfl, rfl, ⟨by norm_num, by norm_num⟩, hchk, ?_, rfl⟩
  unfold backtest_auto_exit
  have hst : (apply_sl_tp_alert zeroR
      { zeroStopSig with current_price := zeroR.current_price }).status = .entered := rfl
  have halert : (apply_sl_tp_alert zeroR
      { zeroStopSig with current_price := zeroR.current_price }).sl_tp_alert = none := hchk
  rw [if_pos hst, halert]

/-! ## C7: backtest balance accounting -/

/-- Every row of the table was auto-entered if it is `entered`. -/
def AllOk (ss : List Signal) : Prop := ∀ s ∈ ss, EnteredOk s

/-- The conserved quantity: cash plus locked-in position cost minus the
exact cash effect of the recorded trades. -/
def Qval (st : SimState) (ss : List Signal) : ℚ :=
  st.current_balance + sumCost ss - sumDeltas st.trades

/-- Invariant of the backtest run. -/
def BtInv (b0 : ℚ) (p : SimState × List Signal) : Prop :=
  AllOk p.2 ∧ Qval p.1 p.2 = b0

lemma sumDeltas_append (ts : List Trade) (t : Trade) :
    sumDeltas (ts ++ [t]) = sumDeltas ts + tradeDelta t := by
  simp [sumDeltas]

lemma sumCost_cons (s : Signal) (ss : List Signal) :
    sumCost (s :: ss) = entCost s + sumCost ss := by
  simp [sumCost]

lemma sumCost_append (ss ts : List Signal) :
    sumCost (ss ++ ts) = sumCost ss + sumCost ts := by
  simp [sumCost]

lemma check_entry_exit_spec (s : Signal) (r : ScanResult) (s' : Signal)
    (h : check_entry_exit s r = some s') (hst : s.status = .triggered) :
    s'.status ≠ .entered ∧ entCost s' = 0 := by
  unfold check_entry_exit at h
  cases hcp : r.current_price with
  | none => rw [hcp] at h; exact absurd h (by simp)
  | some cp =>
    simp only [hcp] at h
    rcases hsl : s.stop_loss with _ | sl <;>
      rcases htp : s.take_profit with _ | tp <;>
      rcases hep : s.entry_price with _ | ep <;>
      cases hdir : s.longDir <;>
      simp only [hsl, htp, hep, hdir, Bool.false_eq_true, if_false, if_true] at h <;>
      (try split_ifs at h) <;>
      first
        | exact Option.noConfusion h
        | (rw [Option.some_inj] at h
           subst h
           refine ⟨?_, ?_⟩ <;> simp [entCost, close_signal_status, hst])

lemma simProcessExisting_cost (r : ScanResult) (s : Signal) (s' : Signal)
    (new : List Signal) (h : simProcessExisting r s = some (s', new))
    (hok : EnteredOk s) :
    entCost s' = entCost s ∧ EnteredOk s' ∧
    (∀ t ∈ new, entCost t = 0 ∧ EnteredOk t) := by
  unfold simProcessExisting at h
  split_ifs at h <;> cases hs : s.status <;> rw [hs] at h <;>
    simp only [Option.map_eq_some'] at h <;>
    first
      | ( -- triggered branch through `check_entry_exit`
         obtain ⟨x, hx, hxe⟩ := h
         obtain ⟨hne, hc0⟩ := check_entry_exit_spec _ _ _ hx (by
           first
             | exact hs
             | ( -- `check_entry_exit` got the price-updated record
                simp [hs]))
         cases hxe
         refine ⟨?_, ?_, by simp⟩
         · rw [hc0, entCost, if_neg (by rw [hs]; intro hcon; cases hcon)]
         · intro hcon; exact absurd hcon hne)
      | (cases h
         refine ⟨?_, ?_, ?_⟩ <;>
           simp_all [entCost, EnteredOk, apply_sl_tp_alert, newTriggered,
             newPending, hs])

lemma sumCost_eq_zero (ss : List Signal) (h : ∀ t ∈ ss, entCost t = 0) :
    sumCost ss = 0 := by
  induction ss with
  | nil => simp [sumCost]
  | cons t ts iht =>
    rw [sumCost_cons, h t (by simp), iht (fun x hx => h x (by simp [hx]))]
    simp

lemma processNone_cost (r : ScanResult) :
    sumCost (processNone r) = 0 ∧ AllOk (processNone r) := by
  unfold processNone AllOk
  split_ifs <;>
    simp [sumCost, entCost, EnteredOk, newTriggered, newPending]

lemma simProcessResult_cost (r : ScanResult) :
    ∀ ss : List Signal, AllOk ss →
      AllOk (simProcessResult r ss) ∧
      sumCost (simProcessResult r ss) = sumCost ss := by
  intro ss
  induction ss with
  | nil =>
    intro _
    unfold simProcessResult
    refine ⟨(processNone_cost r).2, ?_⟩
    rw [(processNone_cost r).1]
    simp [sumCost]
  | cons s rest ih =>
    intro h
    have hs : EnteredOk s := h s (by simp)
    have hrest : AllOk rest := fun x hx => h x (by simp [hx])
    unfold simProcessResult
    split_ifs with hact
    · cases hpe : simProcessExisting r s with
      | none =>
        exact ⟨h, rfl⟩
      | some pair =>
        obtain ⟨s', new⟩ := pair
        obtain ⟨hc, hok', hnew⟩ := simProcessExisting_cost r s s' new hpe hs
        show AllOk (s' :: rest ++ new) ∧
          sumCost (s' :: rest ++ new) = sumCost (s :: rest)
        constructor
        · intro x hx
          rcases List.mem_cons.mp hx with rfl | hx'
          · exact hok'
          · rcases List.mem_append.mp hx' with hx'' | hx''
            · exact hrest x hx''
            · exact (hnew x hx'').2
        · have hz : sumCost new = 0 := sumCost_eq_zero new (fun t ht => (hnew t ht).1)
          simp only [sumCost_cons, sumCost_append, hc, hz]
          ring
    · obtain ⟨h1, h2⟩ := ih hrest
      constructor
      · intro x hx
        rcases List.mem_cons.mp hx with rfl | hx'
        · exact hs
        · exact h1 x hx'
      · rw [sumCost_cons, sumCost_cons, h2]

lemma truthy_some_iff (x : ℚ) : truthy (some x) = true ↔ x ≠ 0 := by
  simp [truthy]

/-- Accounting effect of one `_backtest_close_position` call on an
auto-entered position. -/
lemma backtest_close_Q (st : SimState) (s : Signal) (ep : ℚ) (reason : Status)
    (a : ℚ) (ha : s.actual_entry_price = some a) (ha0 : a ≠ 0)
    (hl : s.lots = some 1) (hterm : reason ≠ .entered) :
    ∃ ST S', backtest_close_position st s ep reason = some (ST, S') ∧
      ST.current_balance = st.current_balance + ep ∧
      sumDeltas ST.trades = sumDeltas st.trades + (ep - a) ∧
      entCost S' = 0 ∧ EnteredOk S' := by
  unfold backtest_close_position
  rw [ha]
  rw [if_pos (by simp [truthy, ha0])]
  simp only [Option.getD_some]
  rw [if_neg ha0]
  refine ⟨_, _, rfl, ?_, ?_, ?_, ?_⟩
  · rw [hl]
    have hlots : (if truthy (some (1 : ℚ)) = true then (some (1 : ℚ)).getD 0 else 1) = 1 := by
      norm_num [truthy]
    dsimp only
    rw [hlots, mul_one]
  · rw [sumDeltas_append, hl]
    have hlots : (if truthy (some (1 : ℚ)) = true then (some (1 : ℚ)).getD 0 else 1) = 1 := by
      norm_num [truthy]
    unfold tradeDelta
    dsimp only
    rw [hlots, mul_one]
  · simp [entCost, hterm]
  · intro hcon
    exact absurd hcon (by simp [hterm])

/-- Accounting effect of the auto-exit pass on one signal. -/
lemma auto_exit_Q (st : SimState) (s : Signal) (hok : EnteredOk s) :
    (backtest_auto_exit st s).1.current_balance + entCost (backtest_auto_exit st s).2
        - sumDeltas (backtest_auto_exit st s).1.trades
      = st.current_balance + entCost s - sumDeltas st.trades ∧
    EnteredOk (backtest_auto_exit st s).2 := by
  by_cases hst : s.status = .entered
  · obtain ⟨ha', hl⟩ := hok hst
    cases haopt : s.actual_entry_price with
    | none => rw [haopt] at ha'; exact absurd ha' (by simp [truthy])
    | some a =>
      have ha0 : a ≠ 0 := by rw [haopt] at ha'; simpa [truthy] using ha'
      have hcost : entCost s = a := by
        simp [entCost, hst, haopt, hl]
      unfold backtest_auto_exit
      rw [if_pos hst]
      cases halert : s.sl_tp_alert with
      | none =>
        simp only [halert]
        exact ⟨trivial, hok⟩
      | some alert =>
        cases alert with
        | sl_hit =>
          simp only [halert]
          by_cases htr : truthy s.stop_loss = true
          · rw [if_pos htr]
            obtain ⟨ST, S', hclose, hbal, hdel, hc0, hok'⟩ :=
              backtest_close_Q st s (s.stop_loss.getD 0) .stopped a haopt ha0 hl
                (by decide)
            rw [hclose]
            simp only [Option.getD_some]
            refine ⟨?_, hok'⟩
            rw [hbal, hdel, hc0, hcost]
            ring
          · rw [if_neg htr]
            exact ⟨rfl, hok⟩
        | tp_hit =>
          simp only [halert]
          by_cases htr : truthy s.take_profit = true
          · rw [if_pos htr]
            obtain ⟨ST, S', hclose, hbal, hdel, hc0, hok'⟩ :=
              backtest_close_Q st s (s.take_profit.getD 0) .target_hit a haopt ha0 hl
                (by decide)
            rw [hclose]
            simp only [Option.getD_some]
            refine ⟨?_, hok'⟩
            rw [hbal, hdel, hc0, hcost]
            ring
          · rw [if_neg htr]
            exact ⟨rfl, hok⟩
  · unfold backtest_auto_exit
    rw [if_neg hst]
    exact ⟨rfl, hok⟩

/-- Accounting effect of the auto-enter pass on one signal. -/
lemma auto_enter_Q (st : SimState) (s : Signal) (hok : EnteredOk s) :
    (backtest_auto_enter st s).1.current_balance + entCost (backtest_auto_enter st s).2
        - sumDeltas (backtest_auto_enter st s).1.trades
      = st.current_balance + entCost s - sumDeltas st.trades ∧
    EnteredOk (backtest_auto_enter st s).2 := by
  unfold backtest_auto_enter
  split_ifs with h1 h2
  · -- truthy entry price: entry taken unless the balance is insufficient
    have hcost0 : entCost s = 0 := by
      unfold entCost
      rw [if_neg (by rw [h1.1]; intro hcon; cases hcon)]
    cases hep : s.entry_price with
    | none => rw [hep] at h2; exact absurd h2 (by simp [truthy])
    | some e0 =>
      have he0 : e0 ≠ 0 := by rw [hep] at h2; simpa [truthy] using h2
      simp only [hep, Option.getD_some]
      by_cases h3 : st.current_balance < e0 * 1
      · rw [if_pos h3]
        exact ⟨rfl, hok⟩
      · rw [if_neg h3]
        constructor
        · dsimp only
          rw [hcost0]
          unfold entCost
          rw [if_pos rfl]
          dsimp only
          simp only [Option.getD_some]
          ring
        · intro _
          exact ⟨by simp [truthy, he0], rfl⟩
  · exact ⟨rfl, hok⟩
  · exact ⟨rfl, hok⟩

/-- Accounting effect of the end-of-day force close on one signal. -/
lemma eod_close_Q (st : SimState) (s : Signal) (hok : EnteredOk s) :
    (backtest_eod_close_one st s).1.current_balance
        + entCost (backtest_eod_close_one st s).2
        - sumDeltas (backtest_eod_close_one st s).1.trades
      = st.current_balance + entCost s - sumDeltas st.trades ∧
    EnteredOk (backtest_eod_close_one st s).2 := by
  unfold backtest_eod_close_one
  by_cases hst : s.status = .entered
  · rw [if_pos hst]
    obtain ⟨ha', hl⟩ := hok hst
    cases haopt : s.actual_entry_price with
    | none => rw [haopt] at ha'; exact absurd ha' (by simp [truthy])
    | some a =>
      have ha0 : a ≠ 0 := by rw [haopt] at ha'; simpa [truthy] using ha'
      have hcost : entCost s = a := by
        simp [entCost, hst, haopt, hl]
      cases heod : (if truthy s.current_price = true then s.current_price else s.entry_price) with
      | none =>
        simp only [heod]
        exact ⟨trivial, hok⟩
      | some eod =>
        simp only [heod]
        obtain ⟨ST, S', hclose, hbal, hdel, hc0, hok'⟩ :=
          backtest_close_Q st s eod .stopped a haopt ha0 hl (by decide)
        rw [hclose]
        simp only [Option.getD_some]
        refine ⟨?_, hok'⟩
        rw [hbal, hdel, hc0, hcost]
        ring
  · rw [if_neg hst]
    exact ⟨rfl, hok⟩

lemma mapAccum_Q (f : SimState → Signal → SimState × Signal)
    (hf : ∀ st s, EnteredOk s →
      ((f st s).1.current_balance + entCost (f st s).2 - sumDeltas (f st s).1.trades
        = st.current_balance + entCost s - sumDeltas st.trades) ∧ EnteredOk (f st s).2) :
    ∀ (ss : List Signal) (st : SimState), AllOk ss →
      Qval (mapAccum f st ss).1 (mapAccum f st ss).2 = Qval st ss ∧
      AllOk (mapAccum f st ss).2 := by
  intro ss
  induction ss with
  | nil =>
    intro st _
    exact ⟨rfl, fun x hx => absurd hx (List.not_mem_nil x)⟩
  | cons s rest ih =>
    intro st h
    have hs := h s (by simp)
    have hrest : AllOk rest := fun x hx => h x (by simp [hx])
    obtain ⟨hq1, hok1⟩ := hf st s hs
    obtain ⟨hq2, hok2⟩ := ih (f st s).1 hrest
    constructor
    · show Qval (mapAccum f (f st s).1 rest).1
        ((f st s).2 :: (mapAccum f (f st s).1 rest).2) = Qval st (s :: rest)
      unfold Qval at hq2 ⊢
      rw [sumCost_cons, sumCost_cons]
      linarith [hq1, hq2]
    · show AllOk ((f st s).2 :: (mapAccum f (f st s).1 rest).2)
      intro x hx
      rcases List.mem_cons.mp hx with rfl | hx'
      · exact hok1
      · exact hok2 x hx'

lemma btStep_inv (b0 : ℚ) (p : SimState × List Signal) (ev : BtEvent)
    (h : BtInv b0 p) : BtInv b0 (btStep p ev) := by
  obtain ⟨st, ss⟩ := p
  obtain ⟨hok, hq⟩ := h
  cases ev with
  | scan r =>
    obtain ⟨h1, h2⟩ := simProcessResult_cost r ss hok
    refine ⟨h1, ?_⟩
    show Qval st (simProcessResult r ss) = b0
    unfold Qval at hq ⊢
    rw [h2]
    exact hq
  | autoTrade =>
    obtain ⟨hq1, hok1⟩ := mapAccum_Q backtest_auto_exit auto_exit_Q ss st hok
    obtain ⟨hq2, hok2⟩ := mapAccum_Q backtest_auto_enter auto_enter_Q
      (mapAccum backtest_auto_exit st ss).2 (mapAccum backtest_auto_exit st ss).1 hok1
    refine ⟨hok2, ?_⟩
    show Qval (backtest_auto_trade st ss).1 (backtest_auto_trade st ss).2 = b0
    unfold backtest_auto_trade
    rw [hq2, hq1]
    exact hq
  | eodClose =>
    obtain ⟨hq1, hok1⟩ := mapAccum_Q backtest_eod_close_one eod_close_Q ss st hok
    refine ⟨hok1, ?_⟩
    show Qval (backtest_eod_close st ss).1 (backtest_eod_close st ss).2 = b0
    unfold backtest_eod_close
    rw [hq1]
    exact hq

/-- C7 (amended).  Over any backtest run (scan cycles, auto-trade passes,
end-of-day force-closes) starting from `SimulationTimeManager.start`, at
every point at which no signal is `entered` the balance satisfies
`current_balance = initial_balance + Σ (exit_price − entry_price)·lots`
over the recorded trades — the *exact* per-trade cash flow.  This equals
`Σ profit_tl` only for long trades and only up to the 2-decimal rounding
of the stored `profit_tl`; for short trades the cash flow is the
*negation* of the recorded profit (see
`backtest_short_profit_not_conserved`). -/
theorem backtest_balance_conservation (b0 : ℚ) (evs : List BtEvent)
    (hne : ∀ s ∈ (btRun b0 evs).2, s.status ≠ .entered) :
    (btRun b0 evs).1.current_balance = b0 + sumDeltas (btRun b0 evs).1.trades := by
  have hfold : ∀ (l : List BtEvent) (p : SimState × List Signal),
      BtInv b0 p → BtInv b0 (l.foldl btStep p) := by
    intro l
    induction l with
    | nil => intro p h; exact h
    | cons e rest ihe =>
      intro p h
      exact ihe _ (btStep_inv b0 p e h)
  have hbase : BtInv b0 (simStart b0, []) := by
    refine ⟨fun x hx => absurd hx (by simp), ?_⟩
    unfold Qval simStart sumCost sumDeltas
    simp
  have hinv : BtInv b0 (btRun b0 evs) := hfold evs _ hbase
  have hc0 : sumCost (btRun b0 evs).2 = 0 :=
    sumCost_eq_zero _ (fun t ht => by unfold entCost; rw [if_neg (hne t ht)])
  have hq := hinv.2
  unfold Qval at hq
  rw [hc0] at hq
  linarith

/-! ### A concrete backtest run with one short trade -/

/-- Scan 1: a short signal triggers (entry 100, stop 110, target 90). -/
def rShort1 : ScanResult :=
  { precondition_met := true, main_condition_met := true, longDir := false,
    entry_price := some 100, stop_loss := some 110, take_profit := some 90,
    current_price := some 95, notes := "kisa sinyal" }

/-- Scan 2: price 99 reaches the short entry. -/
def rShort2 : ScanResult :=
  { precondition_met := true, main_condition_met := true, longDir := false,
    entry_price := some 100, stop_loss := some 110, take_profit := some 90,
    current_price := some 99 }

/-- Scan 3: the bar `[89, 95]` touches the target 90. -/
def rShort3 : ScanResult :=
  { precondition_met := false, main_condition_met := false,
    current_price := some 90, candle_high := some 95, candle_low := some 89 }

def sigShort1 : Signal :=
  { status := .triggered, longDir := false, entry_price := some 100,
    stop_loss := some 110, take_profit := some 90, current_price := some 95,
    notes := "kisa sinyal" }

def sigShort2 : Signal := { sigShort1 with current_price := some 99, entry_reached := true }

def sigShort3 : Signal :=
  { sigShort2 with
    status := .entered, entered_at := true
    actual_entry_price := some 100, lots := some 1, remaining_lots := some 1
    notes := "Backtest auto-entry" }

def sigShort4 : Signal :=
  { sigShort3 with current_price := some 90, sl_tp_alert := some .tp_hit }

def sigShort5 : Signal :=
  { sigShort4 with
    status := .target_hit, remaining_lots := some 0
    notes := "Backtest close" }

/-- The recorded short trade: entered 100, exited 90, `profit_tl = +10`,
although the cash flow was `−100 + 90 = −10`. -/
def shortTrade : Trade := ⟨false, 100, 90, .win, 10, 10, 1⟩

def stShort3 : SimState := ⟨1000, 900, 0, 0, 0, 0, []⟩

def stShort5 : SimState := ⟨1000, 990, 10, 1, 1, 0, [shortTrade]⟩

/-- The 5-event backtest: trigger, reach entry, auto-enter, touch target,
auto-exit. -/
def shortTrace : List BtEvent :=
  [.scan rShort1, .scan rShort2, .autoTrade, .scan rShort3, .autoTrade]

lemma shortTrace_step1 :
    btStep (simStart 1000, []) (.scan rShort1) = (simStart 1000, [sigShort1]) := rfl

lemma shortTrace_step2 :
    btStep (simStart 1000, [sigShort1]) (.scan rShort2) = (simStart 1000, [sigShort2]) := by
  show (simStart 1000, simProcessResult rShort2 [sigShort1]) = (simStart 1000, [sigShort2])
  norm_num [simProcessResult, simProcessExisting, check_entry_exit,
    close_signal_status, Status.isActive, sigShort1, sigShort2, rShort2]

lemma shortTrace_step3 :
    btStep (simStart 1000, [sigShort2]) .autoTrade = (stShort3, [sigShort3]) := by
  show backtest_auto_trade (simStart 1000) [sigShort2] = (stShort3, [sigShort3])
  norm_num [backtest_auto_trade, mapAccum, backtest_auto_exit, backtest_auto_enter,
    truthy, simStart, sigShort2, sigShort1, sigShort3, stShort3]

lemma shortTrace_step4 :
    btStep (stShort3, [sigShort3]) (.scan rShort3) = (stShort3, [sigShort4]) := by
  show (stShort3, simProcessResult rShort3 [sigShort3]) = (stShort3, [sigShort4])
  norm_num [simProcessResult, simProcessExisting, apply_sl_tp_alert,
    check_sl_tp_hit, truthy, Status.isActive, sigShort3, sigShort4, sigShort2,
    sigShort1, rShort3]

lemma shortTrace_step5 :
    btStep (stShort3, [sigShort4]) .autoTrade = (stShort5, [sigShort5]) := by
  show backtest_auto_trade stShort3 [sigShort4] = (stShort5, [sigShort5])
  norm_num [backtest_auto_trade, mapAccum, backtest_auto_exit, backtest_auto_enter,
    backtest_close_position, truthy, round2, rhe, stShort3, stShort5, shortTrade,
    sigShort4, sigShort3, sigShort2, sigShort1, sigShort5]
  rw [if_neg (by decide : ¬(Status.target_hit = Status.triggered))]
  exact ⟨rfl, rfl⟩

lemma shortTrace_eval : btRun 1000 shortTrace = (stShort5, [sigShort5]) := by
  unfold btRun shortTrace
  rw [List.foldl_cons, shortTrace_step1, List.foldl_cons, shortTrace_step2,
    List.foldl_cons, shortTrace_step3, List.foldl_cons, shortTrace_step4,
    List.foldl_cons, shortTrace_step5, List.foldl_nil]

/-- C7 counterexample.  After the short backtest trade of `shortTrace`
(no position open), the balance is `990 = 1000 − 100 + 90`, but the
recorded trade carries `profit_tl = +10`, so
`current_balance = initial_balance + Σ profit_tl` fails
(`990 ≠ 1000 + 10`): for short trades the balance effect is the negation
of the recorded profit. -/
theorem backtest_short_profit_not_conserved :
    (∀ s ∈ (btRun 1000 shortTrace).2, s.status ≠ .entered) ∧
    sumProfitTl (btRun 1000 shortTrace).1.trades = 10 ∧
    (btRun 1000 shortTrace).1.current_balance = 990 ∧
    ¬((btRun 1000 shortTrace).1.current_balance =
        1000 + sumProfitTl (btRun 1000 shortTrace).1.trades) := by
  rw [shortTrace_eval]
  refine ⟨?_, ?_, rfl, ?_⟩
  · intro s hs
    rcases List.mem_singleton.mp hs with rfl
    decide
  · norm_num [sumProfitTl, stShort5, shortTrade]
  · norm_num [sumProfitTl, stShort5, shortTrade]

/-- Witness for `backtest_balance_conservation` on the `shortTrace` run. -/
theorem backtest_balance_conservation_witness :
    (∀ s ∈ (btRun 1000 shortTrace).2, s.status ≠ .entered) ∧
    (btRun 1000 shortTrace).1.current_balance =
      1000 + sumDeltas (btRun 1000 shortTrace).1.trades :=
  have hne : ∀ s ∈ (btRun 1000 shortTrace).2, s.status ≠ .entered := by
    rw [shortTrace_eval]
    intro s hs
    rcases List.mem_singleton.mp hs with rfl
    decide
  ⟨hne, backtest_balance_conservation 1000 shortTrace hne⟩

end Financia
